import Mathlib

/-!
Verification of the checkinn proxy's bookings pagination engine
(`src/index.js` variant with fallback, i.e. the `app.get("/api/lodgify/bookings")`
handler together with `lodgifyGet`, `fetchWithTimeout` and `requireLodgifyKey`).

Shallow embedding notes:
* An upstream HTTP fetch is modelled as a function from the outbound call's
  pagination parameters to an outcome.  `fetchWithTimeout` either resolves to a
  response (status + body text) or throws; a thrown `AbortError` is tagged by a
  boolean (`isAbort`).
* The response body text is carried as `raw`; the outcome of `JSON.parse` on it
  is abstracted by `UpBody`: either the parse throws (`text`) or succeeds, in
  which case only the `items` field matters to the engine
  (`Array.isArray(data.items) ? data.items : []`), abstracted as
  `Option (List Item)` (`none` = no `items` array in the parsed value).
* Items are opaque records of which the engine only reads an `id` field
  (`items?.[0]?.id ?? null`); ids are modelled as naturals, with JS truthiness
  of the id value (`firstId && ...`) captured by `truthy` (0 and null/undefined
  are falsy).
* Query parameters `page` and `size` are modelled after conversion by
  `Number(...)`: `none` stands for an absent or empty parameter, numbers are
  `Int`.  The response's `message` fields are omitted; the `error` codes and
  statuses are kept.  The `from`/`to` date filters are forwarded opaquely by
  the code and never influence control flow, so they are not modelled.
-/

namespace Proxy

/-- One upstream booking record; the engine only ever reads its `id` field
(`items?.[0]?.id ?? null`).  `none` models a missing/null id. -/
structure Item where
  id : Option Nat
deriving DecidableEq

/-- JS truthiness of the extracted first-item id: `null`/`undefined` and the
number `0` are falsy, every other number is truthy. -/
def truthy : Option Nat → Bool
  | none => false
  | some n => decide (n ≠ 0)

/-- Abstraction of `JSON.parse(txt)` followed by
`Array.isArray(data.items) ? data.items : []`:
`text` = the body is not parseable JSON (the parse throws);
`json none` = parseable JSON without an `items` array;
`json (some l)` = parseable JSON whose `items` array holds `l`. -/
inductive UpBody
  | json (items : Option (List Item))
  | text
deriving DecidableEq

/-- A resolved upstream response: HTTP status, verbatim body text (`txt`), and
the abstract result of parsing that text. -/
structure FetchResult where
  status : Nat
  raw : String
  body : UpBody
deriving DecidableEq

/-- Outcome of one `fetchWithTimeout` call: either it resolves, or it throws
(`isAbort = true` for the timeout `AbortError`, `false` for a generic network
failure). -/
inductive FetchOutcome
  | ok (r : FetchResult)
  | err (isAbort : Bool)
deriving DecidableEq

/-- The pagination parameters of one outbound upstream call, in call order.
The engine's own counters are naturals but a client-forwarded `page` can be any
JS number, so the parameters are integers. -/
inductive Call
  | pageSize (page size : Int)
  | offsetLimit (offset limit : Int)
deriving DecidableEq

/-- Recognises an offset/limit call (used to state that the fallback phase only
ever issues offset/limit fetches). -/
def isOffsetCall : Call → Bool
  | .offsetLimit _ _ => true
  | _ => false

/-- The upstream service, as seen through `fetchWithTimeout`: each outbound
call's parameters determine its outcome. -/
abbrev Upstream := Call → FetchOutcome

/-- What the handler sends back, abstracting the express `res` calls:
`success`   = `res.json({ ok:true, mode, items, total })`;
`relayText` = `res.status(r.status).type("text/plain").send(txt)` (non-2xx
              abort inside the aggregation loops);
`passJson`  = `lodgifyGet` relaying a parseable body via `res.json`;
`passText`  = `lodgifyGet` relaying an unparseable body via `res.type("text/plain")`;
`errJson`   = `res.status(s).json({ ok:false, error, ... })` (message omitted). -/
inductive Response
  | success (mode : String) (items : List Item) (total : Nat)
  | relayText (status : Nat) (raw : String)
  | passJson (status : Nat) (items : Option (List Item))
  | passText (status : Nat) (raw : String)
  | errJson (status : Nat) (error : String)
deriving DecidableEq

/-- The bookings request's pagination query parameters after `Number(...)`
conversion: `pageQ` models `req.query.page` (`none` for absent or empty, the
converted number otherwise) and `sizeQ` models `req.query.size` likewise. -/
structure Request where
  pageQ : Option Int
  sizeQ : Option Int
deriving DecidableEq

/-- `const size = Math.min(500, Math.max(1, Number(req.query.size || 200)))`:
the effective page size, clamped to `[1, 500]`, default 200. -/
def effSize (sizeQ : Option Int) : Nat :=
  (min 500 (max 1 (sizeQ.getD 200))).toNat

/-- `const clientPage = req.query.page ? Number(req.query.page) : null` followed
by the `if (clientPage)` test: `some p` exactly when the handler takes the
single-page passthrough with page `p`.  An absent or empty `page` gives `null`;
a value converting to `0` gives `clientPage = 0`, which is falsy, so the
handler falls through to aggregation. -/
def bypassPage : Option Int → Option Int
  | none => none
  | some p => if p = 0 then none else some p

/-- `const firstId = items?.[0]?.id ?? null`. -/
def firstId (items : List Item) : Option Nat :=
  items.head?.bind Item.id

/-- `if (firstId && lastFirstId && firstId === lastFirstId) stagnationHits += 1;
else stagnationHits = 0;` -/
def stagStep (fid lastFirstId : Option Nat) (stag : Nat) : Nat :=
  if truthy fid = true ∧ truthy lastFirstId = true ∧ fid = lastFirstId then stag + 1 else 0

/-- How one loop iteration ends a phase:
`done all` = a `break` (the accumulated variable holds `all` afterwards);
`abort`    = the non-2xx early `return` relaying status and raw body;
`threw`    = an exception (fetch rejection or `JSON.parse` throw) escaping to
             the handler's outer `catch`. -/
inductive PhaseExit
  | done (all : List Item)
  | abort (status : Nat) (raw : String)
  | threw
deriving DecidableEq

/-- The outcome of one loop iteration: either the loop halts (with the phase
exit and the snapshot of the accumulator at the end of this iteration), or it
continues with updated `lastFirstId`, `stagnationHits` and accumulator. -/
inductive StepOut
  | halt (e : PhaseExit) (accSnap : List (List Item))
  | next (lastFirstId : Option Nat) (stag : Nat) (all : List Item)
deriving DecidableEq

/-- One iteration of the page/size loop (phase A), given the fetch outcome for
`page` and the loop state.  Mirrors the source order: non-2xx abort, parse,
stagnation counter update, `all.push(...items)`, then the breaks in order:
zero items, short page, stagnation ≥ 2 (which also resets `all = []`), and the
`page > 5000` safety break tested after `page += 1`. -/
def pageStep (size page : Nat) (lastFirstId : Option Nat) (stag : Nat)
    (all : List Item) (f : FetchOutcome) : StepOut :=
  match f with
  | .err _ => .halt .threw []
  | .ok r =>
    if 200 ≤ r.status ∧ r.status < 300 then
      match r.body with
      | .text => .halt .threw []
      | .json itemsOpt =>
        let items := itemsOpt.getD []
        let fid := firstId items
        let stag' := stagStep fid lastFirstId stag
        let all' := all ++ items
        if items.length = 0 then .halt (.done all') [all']
        else if items.length < size then .halt (.done all') [all']
        else if 2 ≤ stag' then .halt (.done []) [[]]
        else if 5000 < page + 1 then .halt (.done all') [all']
        else .next fid stag' all'
    else .halt (.abort r.status r.raw) []

/-- One iteration of the offset/limit fallback loop (phase B).  The source
computes `firstId` here only for logging, performs no stagnation bookkeeping,
and never discards `all2`; the `safety > 20000` break is tested after
`safety += 1`.  The `next` constructor's first two fields are unused here. -/
def offsetStep (limit safety : Nat) (all2 : List Item) (f : FetchOutcome) : StepOut :=
  match f with
  | .err _ => .halt .threw []
  | .ok r =>
    if 200 ≤ r.status ∧ r.status < 300 then
      match r.body with
      | .text => .halt .threw []
      | .json itemsOpt =>
        let items := itemsOpt.getD []
        let all2' := all2 ++ items
        if items.length = 0 then .halt (.done all2') [all2']
        else if items.length < limit then .halt (.done all2') [all2']
        else if 20000 < safety + 1 then .halt (.done all2') [all2']
        else .next none 0 all2'
    else .halt (.abort r.status r.raw) []

/-- A finished phase: how it exited, the outbound calls it made in order, and
the accumulator's value at the end of each iteration that reached the
`push` (the observable history of the `all`/`all2` variable). -/
structure PhaseRun where
  exit : PhaseExit
  calls : List Call
  accs : List (List Item)
deriving DecidableEq

/-- The page/size loop (phase A).  `fuel` is a recursion bound only; the run
started by `phaseA` always stops via the source's own breaks before the fuel
runs out, because `page` may reach at most 5000. -/
def phaseAAux (up : Upstream) (size : Nat) :
    Nat → Nat → Option Nat → Nat → List Item → PhaseRun
  | 0, _, _, _, all => ⟨.done all, [], []⟩
  | fuel+1, page, lastFirstId, stag, all =>
    let c : Call := .pageSize page size
    match pageStep size page lastFirstId stag all (up c) with
    | .halt e snaps => ⟨e, [c], snaps⟩
    | .next fid stag' all' =>
      let rest := phaseAAux up size fuel (page + 1) fid stag' all'
      ⟨rest.exit, c :: rest.calls, all' :: rest.accs⟩

/-- Phase A as started by the handler: `page = 1`, `lastFirstId = null`,
`stagnationHits = 0`, `all = []`. -/
def phaseA (up : Upstream) (size : Nat) : PhaseRun :=
  phaseAAux up size 5000 1 none 0 []

/-- The offset/limit fallback loop (phase B).  As for phase A the fuel is only
a recursion bound: `safety` may reach at most 20000, for at most 20001
iterations. -/
def phaseBAux (up : Upstream) (limit : Nat) :
    Nat → Nat → Nat → List Item → PhaseRun
  | 0, _, _, all2 => ⟨.done all2, [], []⟩
  | fuel+1, offset, safety, all2 =>
    let c : Call := .offsetLimit offset limit
    match offsetStep limit safety all2 (up c) with
    | .halt e snaps => ⟨e, [c], snaps⟩
    | .next _ _ all2' =>
      let rest := phaseBAux up limit fuel (offset + limit) (safety + 1) all2'
      ⟨rest.exit, c :: rest.calls, all2' :: rest.accs⟩

/-- Phase B as started by the handler: `offset = 0`, `safety = 0`,
`all2 = []`, `limit = size`. -/
def phaseB (up : Upstream) (limit : Nat) : PhaseRun :=
  phaseBAux up limit 20001 0 0 []

/-- `lodgifyGet` (the single-call proxy helper shared by the properties route
and the single-page bookings path): on a fetch rejection it answers 504 with
an error code distinguishing the timeout `AbortError` from other failures;
otherwise it relays the upstream status and the body as JSON when parseable,
else as plain text. -/
def lodgifyGet (up : Upstream) (c : Call) : Response :=
  match up c with
  | .err isAbort => .errJson 504 (if isAbort then "lodgify_timeout" else "lodgify_fetch_failed")
  | .ok r =>
    match r.body with
    | .json itemsOpt => .passJson r.status itemsOpt
    | .text => .passText r.status r.raw

/-- The `/api/lodgify/properties` route: key check then one `lodgifyGet`
passthrough; the forwarded query is abstracted as the call `c`. -/
def propertiesHandler (hasKey : Bool) (up : Upstream) (c : Call) : Response :=
  if !hasKey then .errJson 500 "missing_lodgify_key"
  else lodgifyGet up c

/-- The `/api/lodgify/bookings` route: key check; clamped size; single-page
passthrough when the client-supplied `page` is truthy; otherwise the
aggregation: phase A, then — only when the accumulated `all` is empty — the
offset/limit fallback (phase B).  Also returns the outbound calls in order. -/
def bookingsHandler (hasKey : Bool) (up : Upstream) (req : Request) :
    Response × List Call :=
  if !hasKey then (.errJson 500 "missing_lodgify_key", [])
  else
    let size := effSize req.sizeQ
    match bypassPage req.pageQ with
    | some p => (lodgifyGet up (.pageSize p size), [.pageSize p size])
    | none =>
      let ra := phaseA up size
      match ra.exit with
      | .abort st raw => (.relayText st raw, ra.calls)
      | .threw => (.errJson 500 "lodgify_bookings_failed", ra.calls)
      | .done all =>
        if 0 < all.length then (.success "page/size" all all.length, ra.calls)
        else
          let rb := phaseB up size
          match rb.exit with
          | .abort st raw => (.relayText st raw, ra.calls ++ rb.calls)
          | .threw => (.errJson 500 "lodgify_bookings_failed", ra.calls ++ rb.calls)
          | .done all2 => (.success "offset/limit" all2 all2.length, ra.calls ++ rb.calls)

/-! Helper definitions used to state the properties: concatenations of
consecutive upstream pages, the corresponding call lists, and boolean
predicates over the accumulator history. -/

/-- `pagesFrom P p cnt` is the concatenation `P p ++ P (p+1) ++ ... `, `cnt`
pages starting at index `p` — "the concatenation of all returned pages in call
order" when `P` gives the items of each fetched page. -/
def pagesFrom (P : Nat → List Item) : Nat → Nat → List Item
  | _, 0 => []
  | p, cnt+1 => P p ++ pagesFrom P (p + 1) cnt

/-- The page/size calls `page = p, p+1, ...` (`cnt` of them) with size `S`. -/
def pageCallsFrom (S : Nat) : Nat → Nat → List Call
  | _, 0 => []
  | p, cnt+1 => Call.pageSize p S :: pageCallsFrom S (p + 1) cnt

/-- The offset/limit calls for iterations `k, k+1, ...` (`cnt` of them) with
limit `L`, the `k`-th iteration fetching at offset `off k`. -/
def offsetCallsFrom (L : Nat) (off : Nat → Nat) : Nat → Nat → List Call
  | _, 0 => []
  | k, cnt+1 => Call.offsetLimit (off k) L :: offsetCallsFrom L off (k + 1) cnt

/-- Boolean list-prefix test (via decidable equality of items). -/
def isPrefixB : List Item → List Item → Bool
  | [], _ => true
  | _ :: _, [] => false
  | a :: xs, b :: ys => decide (a = b) && isPrefixB xs ys

/-- `growsFrom prev accs`: starting from `prev`, every successive accumulator
snapshot extends the previous one (append-only history). -/
def growsFrom : List Item → List (List Item) → Bool
  | _, [] => true
  | prev, a :: rest => isPrefixB prev a && growsFrom a rest

/-- `growsOrDiscard prev accs`: every successive snapshot either extends the
previous one or is the empty list (the stagnation discard). -/
def growsOrDiscard : List Item → List (List Item) → Bool
  | _, [] => true
  | prev, a :: rest => (isPrefixB prev a || a.isEmpty) && growsOrDiscard a rest

/-! Concrete upstream behaviours used as counterexample/witness inputs. -/

/-- Upstream that ignores the `page` parameter: every page/size call returns
the same single item (truthy id 7); offset/limit calls return nothing. -/
def upStag : Upstream := fun c =>
  match c with
  | .pageSize _ _ => .ok ⟨200, "", .json (some [⟨some 7⟩])⟩
  | .offsetLimit _ _ => .ok ⟨200, "", .json (some [])⟩

/-- Upstream whose pages 1 and 2 share first id 1, page 3 has first id 2, and
page 4 is empty; offset/limit calls return nothing. -/
def upTwoHits : Upstream := fun c =>
  match c with
  | .pageSize p _ =>
      .ok ⟨200, "", .json (some (if p ≤ 2 then [⟨some 1⟩] else if p = 3 then [⟨some 2⟩] else []))⟩
  | .offsetLimit _ _ => .ok ⟨200, "", .json (some [])⟩

/-- Upstream that always answers 200 with an empty `items` array. -/
def upEmpty : Upstream := fun _ => .ok ⟨200, "", .json (some [])⟩

/-- Upstream that always answers 404 with body `"nope"`. -/
def upNon2xx : Upstream := fun _ => .ok ⟨404, "nope", .text⟩

/-- Upstream that always answers 200 with a body that is not parseable JSON. -/
def upText2xx : Upstream := fun _ => .ok ⟨200, "<html>", .text⟩

/-- Upstream whose every call times out (`AbortError`). -/
def upTimeout : Upstream := fun _ => .err true

/-- Upstream whose every call fails with a generic network error. -/
def upNet : Upstream := fun _ => .err false

/-- Upstream that always answers 200 with parseable JSON lacking an `items`
array. -/
def upNoItems : Upstream := fun _ => .ok ⟨200, "{}", .json none⟩

/-- Upstream that always returns one id-less item per page/size call (a full
page at size 1, never triggering stagnation); offset/limit calls return
nothing. -/
def upFullNoId : Upstream := fun c =>
  match c with
  | .pageSize _ _ => .ok ⟨200, "", .json (some [⟨none⟩])⟩
  | .offsetLimit _ _ => .ok ⟨200, "", .json (some [])⟩

/-- Upstream that returns nothing on page/size calls and the same full
single-item page on every offset/limit call (it ignores `offset`). -/
def upOffFull : Upstream := fun c =>
  match c with
  | .pageSize _ _ => .ok ⟨200, "", .json (some [])⟩
  | .offsetLimit _ _ => .ok ⟨200, "", .json (some [⟨none⟩])⟩

/-- Upstream whose every page/size call returns a single item with id 5 (a
short page for any size ≥ 2). -/
def upShort : Upstream := fun _ => .ok ⟨200, "", .json (some [⟨some 5⟩])⟩

/-! Single-iteration lemmas. -/

theorem pageStep_err (size page : Nat) (last : Option Nat) (stag : Nat)
    (all : List Item) (b : Bool) :
    pageStep size page last stag all (.err b) = .halt .threw [] := rfl

theorem pageStep_abort (size page : Nat) (last : Option Nat) (stag : Nat)
    (all : List Item) (r : FetchResult) (h : ¬(200 ≤ r.status ∧ r.status < 300)) :
    pageStep size page last stag all (.ok r) = .halt (.abort r.status r.raw) [] := by
  simp only [pageStep]
  rw [if_neg h]

theorem pageStep_text (size page : Nat) (last : Option Nat) (stag : Nat)
    (all : List Item) (st : Nat) (rw : String) (h : 200 ≤ st ∧ st < 300) :
    pageStep size page last stag all (.ok ⟨st, rw, .text⟩) = .halt .threw [] := by
  simp only [pageStep]
  rw [if_pos h]

theorem pageStep_noItems (size page : Nat) (last : Option Nat) (stag : Nat)
    (all : List Item) (st : Nat) (rw : String) :
    pageStep size page last stag all (.ok ⟨st, rw, .json none⟩) =
      pageStep size page last stag all (.ok ⟨st, rw, .json (some [])⟩) := rfl

theorem pageStep_short (size page : Nat) (last : Option Nat) (stag : Nat)
    (all : List Item) (st : Nat) (rw : String) (l : List Item)
    (h2 : 200 ≤ st ∧ st < 300) (hshort : l.length < size) :
    pageStep size page last stag all (.ok ⟨st, rw, .json (some l)⟩) =
      .halt (.done (all ++ l)) [all ++ l] := by
  simp only [pageStep]
  rw [if_pos h2]
  by_cases h0 : l.length = 0
  · simp [h0]
  · simp only [Option.getD_some, if_neg h0, if_pos hshort]

theorem pageStep_stagHalt (size page : Nat) (last : Option Nat) (stag : Nat)
    (all : List Item) (st : Nat) (rw : String) (l : List Item)
    (h2 : 200 ≤ st ∧ st < 300) (hfull : size ≤ l.length) (hS : 1 ≤ size)
    (hstag : 2 ≤ stagStep (firstId l) last stag) :
    pageStep size page last stag all (.ok ⟨st, rw, .json (some l)⟩) =
      .halt (.done []) [[]] := by
  simp only [pageStep]
  rw [if_pos h2]
  simp only [Option.getD_some, if_neg (by omega : ¬ l.length = 0),
    if_neg (by omega : ¬ l.length < size), if_pos hstag]

theorem pageStep_bound (size page : Nat) (last : Option Nat) (stag : Nat)
    (all : List Item) (st : Nat) (rw : String) (l : List Item)
    (h2 : 200 ≤ st ∧ st < 300) (hfull : size ≤ l.length) (hS : 1 ≤ size)
    (hstag : stagStep (firstId l) last stag ≤ 1) (hpage : 5000 < page + 1) :
    pageStep size page last stag all (.ok ⟨st, rw, .json (some l)⟩) =
      .halt (.done (all ++ l)) [all ++ l] := by
  simp only [pageStep]
  rw [if_pos h2]
  simp only [Option.getD_some, if_neg (by omega : ¬ l.length = 0),
    if_neg (by omega : ¬ l.length < size),
    if_neg (by omega : ¬ 2 ≤ stagStep (firstId l) last stag), if_pos hpage]

theorem pageStep_next (size page : Nat) (last : Option Nat) (stag : Nat)
    (all : List Item) (st : Nat) (rw : String) (l : List Item)
    (h2 : 200 ≤ st ∧ st < 300) (hfull : size ≤ l.length) (hS : 1 ≤ size)
    (hstag : stagStep (firstId l) last stag ≤ 1) (hpage : page + 1 ≤ 5000) :
    pageStep size page last stag all (.ok ⟨st, rw, .json (some l)⟩) =
      .next (firstId l) (stagStep (firstId l) last stag) (all ++ l) := by
  simp only [pageStep]
  rw [if_pos h2]
  simp only [Option.getD_some, if_neg (by omega : ¬ l.length = 0),
    if_neg (by omega : ¬ l.length < size),
    if_neg (by omega : ¬ 2 ≤ stagStep (firstId l) last stag),
    if_neg (by omega : ¬ 5000 < page + 1)]

theorem offsetStep_err (limit safety : Nat) (all2 : List Item) (b : Bool) :
    offsetStep limit safety all2 (.err b) = .halt .threw [] := rfl

theorem offsetStep_abort (limit safety : Nat) (all2 : List Item)
    (r : FetchResult) (h : ¬(200 ≤ r.status ∧ r.status < 300)) :
    offsetStep limit safety all2 (.ok r) = .halt (.abort r.status r.raw) [] := by
  simp only [offsetStep]
  rw [if_neg h]

theorem offsetStep_text (limit safety : Nat) (all2 : List Item)
    (st : Nat) (rw : String) (h : 200 ≤ st ∧ st < 300) :
    offsetStep limit safety all2 (.ok ⟨st, rw, .text⟩) = .halt .threw [] := by
  simp only [offsetStep]
  rw [if_pos h]

theorem offsetStep_noItems (limit safety : Nat) (all2 : List Item)
    (st : Nat) (rw : String) :
    offsetStep limit safety all2 (.ok ⟨st, rw, .json none⟩) =
      offsetStep limit safety all2 (.ok ⟨st, rw, .json (some [])⟩) := rfl

theorem offsetStep_short (limit safety : Nat) (all2 : List Item)
    (st : Nat) (rw : String) (l : List Item)
    (h2 : 200 ≤ st ∧ st < 300) (hshort : l.length < limit) :
    offsetStep limit safety all2 (.ok ⟨st, rw, .json (some l)⟩) =
      .halt (.done (all2 ++ l)) [all2 ++ l] := by
  simp only [offsetStep]
  rw [if_pos h2]
  by_cases h0 : l.length = 0
  · simp [h0]
  · simp only [Option.getD_some, if_neg h0, if_pos hshort]

theorem offsetStep_bound (limit safety : Nat) (all2 : List Item)
    (st : Nat) (rw : String) (l : List Item)
    (h2 : 200 ≤ st ∧ st < 300) (hfull : limit ≤ l.length) (hL : 1 ≤ limit)
    (hsafety : 20000 < safety + 1) :
    offsetStep limit safety all2 (.ok ⟨st, rw, .json (some l)⟩) =
      .halt (.done (all2 ++ l)) [all2 ++ l] := by
  simp only [offsetStep]
  rw [if_pos h2]
  simp only [Option.getD_some, if_neg (by omega : ¬ l.length = 0),
    if_neg (by omega : ¬ l.length < limit), if_pos hsafety]

theorem offsetStep_next (limit safety : Nat) (all2 : List Item)
    (st : Nat) (rw : String) (l : List Item)
    (h2 : 200 ≤ st ∧ st < 300) (hfull : limit ≤ l.length) (hL : 1 ≤ limit)
    (hsafety : safety + 1 ≤ 20000) :
    offsetStep limit safety all2 (.ok ⟨st, rw, .json (some l)⟩) =
      .next none 0 (all2 ++ l) := by
  simp only [offsetStep]
  rw [if_pos h2]
  simp only [Option.getD_some, if_neg (by omega : ¬ l.length = 0),
    if_neg (by omega : ¬ l.length < limit),
    if_neg (by omega : ¬ 20000 < safety + 1)]

/-- One-step unfolding of the phase A loop. -/
theorem phaseAAux_succ (up : Upstream) (size fuel page : Nat)
    (last : Option Nat) (stag : Nat) (all : List Item) :
    phaseAAux up size (fuel + 1) page last stag all =
      match pageStep size page last stag all (up (.pageSize page size)) with
      | .halt e snaps => ⟨e, [.pageSize page size], snaps⟩
      | .next fid stag' all' =>
        let rest := phaseAAux up size fuel (page + 1) fid stag' all'
        ⟨rest.exit, .pageSize page size :: rest.calls, all' :: rest.accs⟩ := rfl

/-- Characterisation of a clean phase A run: pages `1..n-1` are full `2xx`
pages, page `n` (when it is within the 5000-page bound) is a short `2xx` page,
and no two consecutive pages repeat a truthy first id.  The loop then performs
exactly `min n 5000` fetches and ends `done` with the concatenation of the
fetched pages appended to the incoming accumulator. -/
theorem phaseAAux_cleanRun (up : Upstream) (S : Nat) (P : Nat → List Item)
    (st : Nat → Nat) (rw : Nat → String) (n : Nat)
    (HS : 1 ≤ S)
    (Hok : ∀ k, 1 ≤ k → k ≤ min n 5000 →
      up (.pageSize k S) = .ok ⟨st k, rw k, .json (some (P k))⟩)
    (H2 : ∀ k, 1 ≤ k → k ≤ min n 5000 → 200 ≤ st k ∧ st k < 300)
    (Hfull : ∀ k, 1 ≤ k → k < n → (P k).length = S)
    (Hshort : n ≤ 5000 → (P n).length < S)
    (Hnohit : ∀ k, 1 ≤ k → k + 1 ≤ min n 5000 →
      stagStep (firstId (P (k + 1))) (firstId (P k)) 0 = 0) :
    ∀ fuel p, 1 ≤ p → p ≤ min n 5000 → fuel + p = 5001 →
      ∀ (last : Option Nat) (all : List Item),
      stagStep (firstId (P p)) last 0 = 0 →
      (phaseAAux up S fuel p last 0 all).exit
          = .done (all ++ pagesFrom P p (min n 5000 - p + 1)) ∧
      (phaseAAux up S fuel p last 0 all).calls
          = pageCallsFrom S p (min n 5000 - p + 1) := by
  intro fuel
  induction fuel with
  | zero =>
    intro p h1 hpm hfuel
    omega
  | succ f ih =>
    intro p h1 hpm hfuel last all hin
    have hok := Hok p h1 hpm
    have h2xx := H2 p h1 hpm
    rw [phaseAAux_succ, hok]
    by_cases hpn : p < n
    · have hfull : (P p).length = S := Hfull p h1 hpn
      by_cases hp5 : p < min n 5000
      · -- continue to the next page
        rw [pageStep_next S p last 0 all (st p) (rw p) (P p) h2xx (by omega) HS
            (by rw [hin]; omega) (by omega), hin]
        have e1 : min n 5000 - p + 1 = (min n 5000 - (p + 1) + 1) + 1 := by omega
        have hrec := ih (p + 1) (by omega) (by omega) (by omega)
          (firstId (P p)) (all ++ P p) (Hnohit p h1 (by omega))
        simp only [] at hrec ⊢
        rw [e1]
        refine ⟨?_, ?_⟩
        · rw [show pagesFrom P p (min n 5000 - (p + 1) + 1 + 1)
              = P p ++ pagesFrom P (p + 1) (min n 5000 - (p + 1) + 1) from rfl,
            ← List.append_assoc]
          exact hrec.1
        · rw [show pageCallsFrom S p (min n 5000 - (p + 1) + 1 + 1)
              = Call.pageSize p S :: pageCallsFrom S (p + 1) (min n 5000 - (p + 1) + 1) from rfl]
          rw [hrec.2]
      · -- p = min n 5000 = 5000 < n: the page-count safety break fires
        have hp : p = 5000 := by omega
        rw [pageStep_bound S p last 0 all (st p) (rw p) (P p) h2xx (by omega) HS
            (by rw [hin]; omega) (by omega)]
        have e1 : min n 5000 - p + 1 = 1 := by omega
        rw [e1]
        simp [pagesFrom, pageCallsFrom]
    · -- p = n ≤ 5000: the short page ends the loop normally
      have hpn' : p = n := by omega
      have hshort : (P p).length < S := by rw [hpn']; exact Hshort (by omega)
      rw [pageStep_short S p last 0 all (st p) (rw p) (P p) h2xx hshort]
      have e1 : min n 5000 - p + 1 = 1 := by omega
      rw [e1]
      simp [pagesFrom, pageCallsFrom]

/-- One-step unfolding of the phase B loop. -/
theorem phaseBAux_succ (up : Upstream) (limit fuel offset safety : Nat)
    (all2 : List Item) :
    phaseBAux up limit (fuel + 1) offset safety all2 =
      match offsetStep limit safety all2 (up (.offsetLimit offset limit)) with
      | .halt e snaps => ⟨e, [.offsetLimit offset limit], snaps⟩
      | .next _ _ all2' =>
        let rest := phaseBAux up limit fuel (offset + limit) (safety + 1) all2'
        ⟨rest.exit, .offsetLimit offset limit :: rest.calls, all2' :: rest.accs⟩ := rfl

/-- Characterisation of the fallback loop when every offset/limit response is a
full `2xx` page: the loop runs to the `safety > 20000` circuit breaker,
performing 20001 fetches at offsets advancing by `L`, and ends `done` with all
fetched pages appended. -/
theorem phaseBAux_capRun (up : Upstream) (L : Nat) (off : Nat → Nat)
    (stB : Nat → Nat) (rwB : Nat → String) (Q : Nat → List Item)
    (HL : 1 ≤ L)
    (Hstep : ∀ k, off (k + 1) = off k + L)
    (Hok : ∀ k, k ≤ 20000 →
      up (.offsetLimit (off k) L) = .ok ⟨stB k, rwB k, .json (some (Q k))⟩)
    (H2 : ∀ k, k ≤ 20000 → 200 ≤ stB k ∧ stB k < 300)
    (Hfull : ∀ k, k ≤ 20000 → (Q k).length = L) :
    ∀ fuel s, s ≤ 20000 → fuel + s = 20001 →
      ∀ all2 : List Item,
      (phaseBAux up L fuel (off s) s all2).exit
          = .done (all2 ++ pagesFrom Q s (20001 - s)) ∧
      (phaseBAux up L fuel (off s) s all2).calls
          = offsetCallsFrom L off s (20001 - s) := by
  intro fuel
  induction fuel with
  | zero =>
    intro s h1 h2
    omega
  | succ f ih =>
    intro s hs hfuel all2
    rw [phaseBAux_succ, Hok s hs]
    by_cases hcap : s = 20000
    · rw [offsetStep_bound L s all2 (stB s) (rwB s) (Q s) (H2 s hs)
          (Hfull s hs).ge HL (by omega)]
      have e1 : 20001 - s = 1 := by omega
      rw [e1]
      refine ⟨?_, ?_⟩ <;> simp [pagesFrom, offsetCallsFrom]
    · rw [offsetStep_next L s all2 (stB s) (rwB s) (Q s) (H2 s hs)
          (Hfull s hs).ge HL (by omega)]
      have hrec := ih (s + 1) (by omega) (by omega) (all2 ++ Q s)
      rw [Hstep s] at hrec
      simp only [] at hrec ⊢
      have e1 : 20001 - s = (20001 - (s + 1)) + 1 := by omega
      rw [e1]
      refine ⟨?_, ?_⟩
      · rw [show pagesFrom Q s (20001 - (s + 1) + 1)
            = Q s ++ pagesFrom Q (s + 1) (20001 - (s + 1)) from rfl,
          ← List.append_assoc]
        exact hrec.1
      · rw [show offsetCallsFrom L off s (20001 - (s + 1) + 1)
            = Call.offsetLimit (off s) L :: offsetCallsFrom L off (s + 1) (20001 - (s + 1)) from rfl]
        rw [hrec.2]

/-- When the first offset/limit fetch answers `2xx` with fewer items than the
limit, the fallback stops after that single call. -/
theorem phaseB_shortStop (up : Upstream) (L : Nat) (st : Nat) (rw : String)
    (l : List Item) (h2 : 200 ≤ st ∧ st < 300) (hshort : l.length < L)
    (hok : up (.offsetLimit 0 L) = .ok ⟨st, rw, .json (some l)⟩) :
    phaseB up L = ⟨.done l, [.offsetLimit 0 L], [l]⟩ := by
  unfold phaseB
  rw [show (20001 : Nat) = 20000 + 1 from rfl, phaseBAux_succ]
  simp only [Nat.cast_zero]
  rw [hok, offsetStep_short L 0 [] st rw l h2 hshort]
  simp

/-- If some call of a phase A run got a non-2xx response, the phase exited by
relaying exactly that response's status and raw body. -/
theorem phaseAAux_abortOf (up : Upstream) (size : Nat) :
    ∀ fuel page (last : Option Nat) (stag : Nat) (all : List Item) (c : Call)
      (r : FetchResult),
      c ∈ (phaseAAux up size fuel page last stag all).calls →
      up c = .ok r → ¬(200 ≤ r.status ∧ r.status < 300) →
      (phaseAAux up size fuel page last stag all).exit = .abort r.status r.raw := by
  intro fuel
  induction fuel with
  | zero =>
    intro page last stag all c r hmem
    simp [phaseAAux] at hmem
  | succ f ih =>
    intro page last stag all c r hmem hup hbad
    rw [phaseAAux_succ] at hmem ⊢
    rcases hstep : pageStep size page last stag all (up (.pageSize page size)) with
      ⟨e, snaps⟩ | ⟨fid, stag', all'⟩
    · rw [hstep] at hmem
      simp only [List.mem_singleton] at hmem
      subst hmem
      rw [hup, pageStep_abort size page last stag all r hbad] at hstep
      simp only [StepOut.halt.injEq] at hstep
      obtain ⟨he, _⟩ := hstep
      subst he
      rfl
    · rw [hstep] at hmem
      simp only [List.mem_cons] at hmem
      rcases hmem with hmem | hmem
      · subst hmem
        rw [hup, pageStep_abort size page last stag all r hbad] at hstep
        exact absurd hstep (by simp)
      · exact ih (page + 1) fid stag' all' c r hmem hup hbad

/-- If some call of a phase B run got a non-2xx response, the phase exited by
relaying exactly that response's status and raw body. -/
theorem phaseBAux_abortOf (up : Upstream) (limit : Nat) :
    ∀ fuel offset safety (all2 : List Item) (c : Call) (r : FetchResult),
      c ∈ (phaseBAux up limit fuel offset safety all2).calls →
      up c = .ok r → ¬(200 ≤ r.status ∧ r.status < 300) →
      (phaseBAux up limit fuel offset safety all2).exit = .abort r.status r.raw := by
  intro fuel
  induction fuel with
  | zero =>
    intro offset safety all2 c r hmem
    simp [phaseBAux] at hmem
  | succ f ih =>
    intro offset safety all2 c r hmem hup hbad
    rw [phaseBAux_succ] at hmem ⊢
    rcases hstep : offsetStep limit safety all2 (up (.offsetLimit offset limit)) with
      ⟨e, snaps⟩ | ⟨x, y, all2'⟩
    · rw [hstep] at hmem
      simp only [List.mem_singleton] at hmem
      subst hmem
      rw [hup, offsetStep_abort limit safety all2 r hbad] at hstep
      simp only [StepOut.halt.injEq] at hstep
      obtain ⟨he, _⟩ := hstep
      subst he
      rfl
    · rw [hstep] at hmem
      simp only [List.mem_cons] at hmem
      rcases hmem with hmem | hmem
      · subst hmem
        rw [hup, offsetStep_abort limit safety all2 r hbad] at hstep
        exact absurd hstep (by simp)
      · exact ih (offset + limit) (safety + 1) all2' c r hmem hup hbad

/-- Every call issued by the fallback loop is an offset/limit call. -/
theorem phaseBAux_calls_offset (up : Upstream) (limit : Nat) :
    ∀ fuel offset safety (all2 : List Item) (c : Call),
      c ∈ (phaseBAux up limit fuel offset safety all2).calls →
      isOffsetCall c = true := by
  intro fuel
  induction fuel with
  | zero =>
    intro offset safety all2 c hmem
    simp [phaseBAux] at hmem
  | succ f ih =>
    intro offset safety all2 c hmem
    rw [phaseBAux_succ] at hmem
    rcases hstep : offsetStep limit safety all2 (up (.offsetLimit offset limit)) with
      ⟨e, snaps⟩ | ⟨x, y, all2'⟩
    · rw [hstep] at hmem
      simp only [List.mem_singleton] at hmem
      subst hmem
      rfl
    · rw [hstep] at hmem
      simp only [List.mem_cons] at hmem
      rcases hmem with hmem | hmem
      · subst hmem
        rfl
      · exact ih (offset + limit) (safety + 1) all2' c hmem

/-- The fallback loop always issues at least one fetch. -/
theorem phaseB_calls_ne_nil (up : Upstream) (limit : Nat) :
    (phaseB up limit).calls ≠ [] := by
  unfold phaseB
  rw [show (20001 : Nat) = 20000 + 1 from rfl, phaseBAux_succ]
  rcases hstep : offsetStep limit 0 [] (up (.offsetLimit 0 limit)) with
    ⟨e, snaps⟩ | ⟨x, y, all2'⟩ <;> simp

theorem isPrefixB_append (l t : List Item) : isPrefixB l (l ++ t) = true := by
  induction l with
  | nil => rfl
  | cons a xs ih => simp [isPrefixB, ih]

/-- Any snapshot list produced by a halting phase A iteration is compatible
with "grows or is discarded": it is empty, the discarded `[[]]`, or the single
extended accumulator. -/
theorem pageStep_snaps_growOrDiscard (size page : Nat) (last : Option Nat)
    (stag : Nat) (all : List Item) (f : FetchOutcome) (e : PhaseExit)
    (snaps : List (List Item))
    (h : pageStep size page last stag all f = .halt e snaps) :
    growsOrDiscard all snaps = true := by
  simp only [pageStep] at h
  split at h
  · cases h
    rfl
  · split at h
    · split at h
      · cases h
        rfl
      · split at h
        · cases h
          simp [growsOrDiscard, isPrefixB_append]
        · split at h
          · cases h
            simp [growsOrDiscard, isPrefixB_append]
          · split at h
            · cases h
              simp [growsOrDiscard]
            · split at h
              · cases h
                simp [growsOrDiscard, isPrefixB_append]
              · cases h
    · cases h
      rfl

/-- A continuing phase A iteration only appends to the accumulator. -/
theorem pageStep_next_prefix (size page : Nat) (last : Option Nat)
    (stag : Nat) (all : List Item) (f : FetchOutcome) (x : Option Nat)
    (y : Nat) (all' : List Item)
    (h : pageStep size page last stag all f = .next x y all') :
    isPrefixB all all' = true := by
  simp only [pageStep] at h
  split at h
  · cases h
  · split at h
    · split at h
      · cases h
      · split at h
        · cases h
        · split at h
          · cases h
          · split at h
            · cases h
            · split at h
              · cases h
              · cases h
                exact isPrefixB_append all _
    · cases h

/-- Any snapshot list produced by a halting phase B iteration extends the
accumulator (the fallback loop never discards). -/
theorem offsetStep_snaps_grow (limit safety : Nat) (all2 : List Item)
    (f : FetchOutcome) (e : PhaseExit) (snaps : List (List Item))
    (h : offsetStep limit safety all2 f = .halt e snaps) :
    growsFrom all2 snaps = true := by
  simp only [offsetStep] at h
  split at h
  · cases h
    rfl
  · split at h
    · split at h
      · cases h
        rfl
      · split at h
        · cases h
          simp [growsFrom, isPrefixB_append]
        · split at h
          · cases h
            simp [growsFrom, isPrefixB_append]
          · split at h
            · cases h
              simp [growsFrom, isPrefixB_append]
            · cases h
    · cases h
      rfl

/-- A continuing phase B iteration only appends to the accumulator. -/
theorem offsetStep_next_prefix (limit safety : Nat) (all2 : List Item)
    (f : FetchOutcome) (x : Option Nat) (y : Nat) (all2' : List Item)
    (h : offsetStep limit safety all2 f = .next x y all2') :
    isPrefixB all2 all2' = true := by
  simp only [offsetStep] at h
  split at h
  · cases h
  · split at h
    · split at h
      · cases h
      · split at h
        · cases h
        · split at h
          · cases h
          · split at h
            · cases h
            · cases h
              exact isPrefixB_append all2 _
    · cases h

/-- Across a whole phase A run, the accumulator history is append-only except
that a snapshot may be the empty list (the stagnation discard). -/
theorem phaseAAux_growOrDiscard (up : Upstream) (size : Nat) :
    ∀ fuel page (last : Option Nat) (stag : Nat) (all : List Item),
      growsOrDiscard all (phaseAAux up size fuel page last stag all).accs = true := by
  intro fuel
  induction fuel with
  | zero =>
    intro page last stag all
    rfl
  | succ f ih =>
    intro page last stag all
    rw [phaseAAux_succ]
    rcases hstep : pageStep size page last stag all (up (.pageSize page size)) with
      ⟨e, snaps⟩ | ⟨fid, stag', all'⟩
    · exact pageStep_snaps_growOrDiscard size page last stag all _ e snaps hstep
    · show growsOrDiscard all (all' :: (phaseAAux up size f (page + 1) fid stag' all').accs) = true
      have h1 := pageStep_next_prefix size page last stag all _ fid stag' all' hstep
      have h2 := ih (page + 1) fid stag' all'
      simp [growsOrDiscard, h1, h2]

/-- Across a whole phase B run, the accumulator history is append-only. -/
theorem phaseBAux_grows (up : Upstream) (limit : Nat) :
    ∀ fuel offset safety (all2 : List Item),
      growsFrom all2 (phaseBAux up limit fuel offset safety all2).accs = true := by
  intro fuel
  induction fuel with
  | zero =>
    intro offset safety all2
    rfl
  | succ f ih =>
    intro offset safety all2
    rw [phaseBAux_succ]
    rcases hstep : offsetStep limit safety all2 (up (.offsetLimit offset limit)) with
      ⟨e, snaps⟩ | ⟨x, y, all2'⟩
    · exact offsetStep_snaps_grow limit safety all2 _ e snaps hstep
    · show growsFrom all2 (all2' :: (phaseBAux up limit f (offset + limit) (safety + 1) all2').accs) = true
      have h1 := offsetStep_next_prefix limit safety all2 _ x y all2' hstep
      have h2 := ih (offset + limit) (safety + 1) all2'
      simp [growsFrom, h1, h2]

/-! Handler-level reduction lemmas. -/

/-- Aggregation mode, phase A ends `done` with a nonempty accumulator: the
handler answers the page/size success payload. -/
theorem handler_pageSizeSuccess (up : Upstream) (req : Request) (all : List Item)
    (hbp : bypassPage req.pageQ = none)
    (hA : (phaseA up (effSize req.sizeQ)).exit = .done all)
    (hpos : 0 < all.length) :
    bookingsHandler true up req =
      (.success "page/size" all all.length, (phaseA up (effSize req.sizeQ)).calls) := by
  unfold bookingsHandler
  simp only [Bool.not_true, Bool.false_eq_true, if_false, hbp, hA, if_pos hpos]

/-- Aggregation mode, phase A ends `done` empty and phase B ends `done`: the
handler answers the offset/limit success payload after both phases' calls. -/
theorem handler_offsetSuccess (up : Upstream) (req : Request)
    (all all2 : List Item)
    (hbp : bypassPage req.pageQ = none)
    (hA : (phaseA up (effSize req.sizeQ)).exit = .done all)
    (hzero : ¬ 0 < all.length)
    (hB : (phaseB up (effSize req.sizeQ)).exit = .done all2) :
    bookingsHandler true up req =
      (.success "offset/limit" all2 all2.length,
       (phaseA up (effSize req.sizeQ)).calls ++ (phaseB up (effSize req.sizeQ)).calls) := by
  unfold bookingsHandler
  simp only [Bool.not_true, Bool.false_eq_true, if_false, hbp, hA, if_neg hzero, hB]

/-- Aggregation mode, phase A relays a non-2xx upstream response. -/
theorem handler_abortA (up : Upstream) (req : Request) (st : Nat) (raw : String)
    (hbp : bypassPage req.pageQ = none)
    (hA : (phaseA up (effSize req.sizeQ)).exit = .abort st raw) :
    bookingsHandler true up req =
      (.relayText st raw, (phaseA up (effSize req.sizeQ)).calls) := by
  unfold bookingsHandler
  simp only [Bool.not_true, Bool.false_eq_true, if_false, hbp, hA]

/-- Aggregation mode, an exception escaped during phase A: the outer catch
answers the 500 `lodgify_bookings_failed` error. -/
theorem handler_threwA (up : Upstream) (req : Request)
    (hbp : bypassPage req.pageQ = none)
    (hA : (phaseA up (effSize req.sizeQ)).exit = .threw) :
    bookingsHandler true up req =
      (.errJson 500 "lodgify_bookings_failed", (phaseA up (effSize req.sizeQ)).calls) := by
  unfold bookingsHandler
  simp only [Bool.not_true, Bool.false_eq_true, if_false, hbp, hA]

/-- Aggregation mode, phase B relays a non-2xx upstream response. -/
theorem handler_abortB (up : Upstream) (req : Request) (all : List Item)
    (st : Nat) (raw : String)
    (hbp : bypassPage req.pageQ = none)
    (hA : (phaseA up (effSize req.sizeQ)).exit = .done all)
    (hzero : ¬ 0 < all.length)
    (hB : (phaseB up (effSize req.sizeQ)).exit = .abort st raw) :
    bookingsHandler true up req =
      (.relayText st raw,
       (phaseA up (effSize req.sizeQ)).calls ++ (phaseB up (effSize req.sizeQ)).calls) := by
  unfold bookingsHandler
  simp only [Bool.not_true, Bool.false_eq_true, if_false, hbp, hA, if_neg hzero, hB]

/-- Aggregation mode, an exception escaped during phase B. -/
theorem handler_threwB (up : Upstream) (req : Request) (all : List Item)
    (hbp : bypassPage req.pageQ = none)
    (hA : (phaseA up (effSize req.sizeQ)).exit = .done all)
    (hzero : ¬ 0 < all.length)
    (hB : (phaseB up (effSize req.sizeQ)).exit = .threw) :
    bookingsHandler true up req =
      (.errJson 500 "lodgify_bookings_failed",
       (phaseA up (effSize req.sizeQ)).calls ++ (phaseB up (effSize req.sizeQ)).calls) := by
  unfold bookingsHandler
  simp only [Bool.not_true, Bool.false_eq_true, if_false, hbp, hA, if_neg hzero, hB]

/-- A truthy client-supplied page bypasses aggregation: a single `lodgifyGet`
passthrough carrying exactly that page value. -/
theorem handler_bypass (up : Upstream) (req : Request) (p : Int)
    (hbp : bypassPage req.pageQ = some p) :
    bookingsHandler true up req =
      (lodgifyGet up (.pageSize p (effSize req.sizeQ)),
       [.pageSize p (effSize req.sizeQ)]) := by
  unfold bookingsHandler
  simp only [Bool.not_true, Bool.false_eq_true, if_false, hbp]

/-- The effective size of an explicit in-range size parameter. -/
theorem effSize_inRange (S : Nat) (h1 : 1 ≤ S) (h2 : S ≤ 500) :
    effSize (some (S : Int)) = S := by
  unfold effSize
  simp only [Option.getD_some]
  omega

/-- The page/size fetches of a nonempty prefix witness that a phase A run
issues `pageCallsFrom` calls (first call lemma used to locate call 1). -/
theorem pageCallsFrom_one (S p : Nat) :
    pageCallsFrom S p 1 = [Call.pageSize p S] := rfl

/-- The stagnation counter resets whenever there is no previous first id. -/
theorem stagStep_none (fid : Option Nat) (stag : Nat) :
    stagStep fid none stag = 0 := by
  simp [stagStep, truthy]

/-- The stagnation counter increments on a repeated truthy first id. -/
theorem stagStep_hit (a stag : Nat) (ha : a ≠ 0) :
    stagStep (some a) (some a) stag = stag + 1 := by
  simp [stagStep, truthy, ha]

/-- A phase A iteration that halts determines the whole remaining run. -/
theorem phaseAAux_halt_eq (up : Upstream) (size fuel page : Nat)
    (last : Option Nat) (stag : Nat) (all : List Item) (e : PhaseExit)
    (snaps : List (List Item))
    (h : pageStep size page last stag all (up (.pageSize page size)) = .halt e snaps) :
    phaseAAux up size (fuel + 1) page last stag all =
      ⟨e, [.pageSize page size], snaps⟩ := by
  rw [phaseAAux_succ, h]

/-- A phase A iteration that continues unfolds to the tail run. -/
theorem phaseAAux_next_eq (up : Upstream) (size fuel page : Nat)
    (last : Option Nat) (stag : Nat) (all : List Item) (fid : Option Nat)
    (stag' : Nat) (all' : List Item)
    (h : pageStep size page last stag all (up (.pageSize page size)) = .next fid stag' all') :
    phaseAAux up size (fuel + 1) page last stag all =
      ⟨(phaseAAux up size fuel (page + 1) fid stag' all').exit,
       .pageSize page size :: (phaseAAux up size fuel (page + 1) fid stag' all').calls,
       all' :: (phaseAAux up size fuel (page + 1) fid stag' all').accs⟩ := by
  rw [phaseAAux_succ, h]

/-- A phase B iteration that halts determines the whole remaining run. -/
theorem phaseBAux_halt_eq (up : Upstream) (limit fuel offset safety : Nat)
    (all2 : List Item) (e : PhaseExit) (snaps : List (List Item))
    (h : offsetStep limit safety all2 (up (.offsetLimit offset limit)) = .halt e snaps) :
    phaseBAux up limit (fuel + 1) offset safety all2 =
      ⟨e, [.offsetLimit offset limit], snaps⟩ := by
  rw [phaseBAux_succ, h]

/-- A nonempty leading page makes the concatenation nonempty. -/
theorem pagesFrom_pos (P : Nat → List Item) (p cnt : Nat)
    (hc : 1 ≤ cnt) (hp : 0 < (P p).length) :
    0 < (pagesFrom P p cnt).length := by
  rcases cnt with _ | c
  · omega
  · show 0 < (P p ++ pagesFrom P (p + 1) c).length
    rw [List.length_append]
    omega

/-- Concatenating `cnt` copies of the same page. -/
theorem pagesFrom_const (pg : List Item) :
    ∀ cnt p, pagesFrom (fun _ => pg) p cnt = (List.replicate cnt pg).flatten := by
  intro cnt
  induction cnt with
  | zero => intro p; rfl
  | succ c ih =>
    intro p
    show pg ++ pagesFrom (fun _ => pg) (p + 1) c = (List.replicate (c + 1) pg).flatten
    rw [ih (p + 1), List.replicate_succ, List.flatten_cons]

/-! The claims. -/

/-- C1 (counterexample): the claim fails as stated.  With page size 1 and an
upstream whose page/size fetches all return the same single item (id 7) while
offset/limit fetches return nothing, every page/size fetch returned exactly
`S = 1` items until one fetch (the fourth issued call, an offset/limit one)
returned fewer — yet the run does not answer `mode "page/size"` with the
concatenation `[7, 7, 7]`: the stagnation detector fires on the third fetch,
discards the pages, and the run answers `mode "offset/limit"` with no items. -/
theorem C1_counterexample :
    bookingsHandler true upStag ⟨none, some 1⟩ =
      (.success "offset/limit" [] 0,
       [.pageSize 1 1, .pageSize 2 1, .pageSize 3 1, .offsetLimit 0 1]) ∧
    (bookingsHandler true upStag ⟨none, some 1⟩).1 ≠
      .success "page/size" [⟨some 7⟩, ⟨some 7⟩, ⟨some 7⟩] 3 := by
  decide

/-- C1 (amended): for every page size `S ∈ [1,500]`, in an aggregation run
where every page/size fetch returns a full `2xx` page of exactly `S` items
until page `n` returns fewer, PROVIDED no two consecutively fetched pages
repeat the same truthy first-item id (otherwise the stagnation fallback fires,
as the counterexample shows) and at least one item is accumulated (an
all-empty result instead falls through to the offset/limit fallback), the run
terminates after `min n 5000` fetches and answers `ok, mode "page/size"` with
exactly the concatenation of the fetched pages in call order, `total` being
its length. -/
theorem C1_theorem (S n : Nat) (up : Upstream) (st : Nat → Nat)
    (rw : Nat → String) (P : Nat → List Item)
    (hS1 : 1 ≤ S) (hS2 : S ≤ 500) (hn : 1 ≤ n)
    (Hok : ∀ k, 1 ≤ k → k ≤ min n 5000 →
      up (.pageSize k S) = .ok ⟨st k, rw k, .json (some (P k))⟩)
    (H2 : ∀ k, 1 ≤ k → k ≤ min n 5000 → 200 ≤ st k ∧ st k < 300)
    (Hfull : ∀ k, 1 ≤ k → k < n → (P k).length = S)
    (Hshort : n ≤ 5000 → (P n).length < S)
    (Hnohit : ∀ k, 1 ≤ k → k + 1 ≤ min n 5000 →
      stagStep (firstId (P (k + 1))) (firstId (P k)) 0 = 0)
    (Hne : 0 < (pagesFrom P 1 (min n 5000)).length) :
    bookingsHandler true up ⟨none, some S⟩ =
      (.success "page/size" (pagesFrom P 1 (min n 5000))
        (pagesFrom P 1 (min n 5000)).length,
       pageCallsFrom S 1 (min n 5000)) := by
  have hmain := phaseAAux_cleanRun up S P st rw n hS1 Hok H2 Hfull Hshort Hnohit
    5000 1 (by omega) (by omega) (by omega) none [] (stagStep_none _ _)
  rw [List.nil_append, show min n 5000 - 1 + 1 = min n 5000 from by omega] at hmain
  have hsz : effSize ((⟨none, some (S : Int)⟩ : Request).sizeQ) = S :=
    effSize_inRange S hS1 hS2
  have hA : (phaseA up (effSize ((⟨none, some (S : Int)⟩ : Request).sizeQ))).exit
      = .done (pagesFrom P 1 (min n 5000)) := by
    rw [hsz]
    exact hmain.1
  have hC : (phaseA up (effSize ((⟨none, some (S : Int)⟩ : Request).sizeQ))).calls
      = pageCallsFrom S 1 (min n 5000) := by
    rw [hsz]
    exact hmain.2
  rw [handler_pageSizeSuccess up ⟨none, some S⟩ (pagesFrom P 1 (min n 5000)) rfl hA Hne, hC]

/-- C1 (witness): a run whose single page is short and nonempty, at size 2. -/
theorem C1_witness :
    bookingsHandler true upShort ⟨none, some 2⟩ =
      (.success "page/size" (pagesFrom (fun _ => [⟨some 5⟩]) 1 (min 1 5000))
        (pagesFrom (fun _ => [⟨some 5⟩]) 1 (min 1 5000)).length,
       pageCallsFrom 2 1 (min 1 5000)) :=
  C1_theorem 2 1 upShort (fun _ => 200) (fun _ => "") (fun _ => [⟨some 5⟩])
    (by omega) (by omega) (by omega)
    (fun k _ _ => rfl)
    (fun k _ _ => show 200 ≤ 200 ∧ 200 < 300 by omega)
    (fun k h1 h2 => by omega)
    (fun _ => by decide)
    (fun k h1 h2 => by omega)
    (by decide)

/-- C2 (counterexample): the claim fails as stated.  With page size 1, the
upstream returns the SAME non-null first id (1) on the two consecutive calls
1 and 2, a different id (2) on call 3, and an empty page 4: the engine never
discards and never switches — it answers `mode "page/size"` with all three
accumulated items after four page/size fetches (the code needs the id repeated
across three consecutive calls, i.e. two consecutive stagnation hits). -/
theorem C2_counterexample :
    bookingsHandler true upTwoHits ⟨none, some 1⟩ =
      (.success "page/size" [⟨some 1⟩, ⟨some 1⟩, ⟨some 2⟩] 3,
       [.pageSize 1 1, .pageSize 2 1, .pageSize 3 1, .pageSize 4 1]) ∧
    (phaseA upTwoHits 1).exit ≠ .done [] := by
  decide

/-- C2 (amended): if the upstream returns the same non-null (truthy)
first-item identifier on THREE consecutive page/size calls — two consecutive
stagnation hits — each a full `2xx` page, then the engine discards everything
accumulated in page/size mode (the phase exits `done []` although three full
pages were pushed), the switch being decided while processing the third fetch:
the page/size phase performs exactly those three calls, and the handler then
runs the offset/limit fallback, whose (at least one) further fetches are all
offset/limit calls. -/
theorem C2_theorem (S : Nat) (up : Upstream) (st : Nat → Nat)
    (rw : Nat → String) (P : Nat → List Item) (a : Nat)
    (hS1 : 1 ≤ S) (hS2 : S ≤ 500) (ha : a ≠ 0)
    (Hok : ∀ k : Nat, 1 ≤ k → k ≤ 3 →
      up (.pageSize k S) = .ok ⟨st k, rw k, .json (some (P k))⟩)
    (H2 : ∀ k : Nat, 1 ≤ k → k ≤ 3 → 200 ≤ st k ∧ st k < 300)
    (Hfull : ∀ k : Nat, 1 ≤ k → k ≤ 3 → S ≤ (P k).length)
    (Hid : ∀ k : Nat, 1 ≤ k → k ≤ 3 → firstId (P k) = some a) :
    (phaseA up S).exit = .done [] ∧
    (phaseA up S).calls = [.pageSize 1 S, .pageSize 2 S, .pageSize 3 S] ∧
    (bookingsHandler true up ⟨none, some S⟩).2 =
      (phaseA up S).calls ++ (phaseB up S).calls ∧
    (phaseB up S).calls ≠ [] ∧
    (∀ c ∈ (phaseB up S).calls, isOffsetCall c = true) := by
  have s1 : pageStep S 1 none 0 []
      (up (.pageSize ((1 : Nat) : Int) (S : Int))) = .next (some a) 0 (P 1) := by
    rw [Hok 1 (by omega) (by omega),
      pageStep_next S 1 none 0 [] (st 1) (rw 1) (P 1) (H2 1 (by omega) (by omega))
        (Hfull 1 (by omega) (by omega)) hS1 (by rw [stagStep_none]; omega) (by omega),
      stagStep_none, Hid 1 (by omega) (by omega), List.nil_append]
  have s2 : pageStep S 2 (some a) 0 (P 1)
      (up (.pageSize ((2 : Nat) : Int) (S : Int))) = .next (some a) 1 (P 1 ++ P 2) := by
    rw [Hok 2 (by omega) (by omega),
      pageStep_next S 2 (some a) 0 (P 1) (st 2) (rw 2) (P 2) (H2 2 (by omega) (by omega))
        (Hfull 2 (by omega) (by omega)) hS1
        (by rw [Hid 2 (by omega) (by omega), stagStep_hit a 0 ha]) (by omega),
      Hid 2 (by omega) (by omega), stagStep_hit a 0 ha]
  have s3 : pageStep S 3 (some a) 1 (P 1 ++ P 2)
      (up (.pageSize ((3 : Nat) : Int) (S : Int))) = .halt (.done []) [[]] := by
    rw [Hok 3 (by omega) (by omega)]
    exact pageStep_stagHalt S 3 (some a) 1 (P 1 ++ P 2) (st 3) (rw 3) (P 3)
      (H2 3 (by omega) (by omega)) (Hfull 3 (by omega) (by omega)) hS1
      (by rw [Hid 3 (by omega) (by omega), stagStep_hit a 1 ha])
  have hrun : phaseAAux up S 5000 1 none 0 [] =
      ⟨.done [], [.pageSize 1 S, .pageSize 2 S, .pageSize 3 S],
       [P 1, P 1 ++ P 2, []]⟩ := by
    rw [show (5000 : Nat) = 4999 + 1 from rfl,
      phaseAAux_next_eq up S 4999 1 none 0 [] (some a) 0 (P 1) s1,
      show (4999 : Nat) = 4998 + 1 from rfl,
      phaseAAux_next_eq up S 4998 2 (some a) 0 (P 1) (some a) 1 (P 1 ++ P 2) s2,
      show (4998 : Nat) = 4997 + 1 from rfl,
      phaseAAux_halt_eq up S 4997 3 (some a) 1 (P 1 ++ P 2) (.done []) [[]] s3]
    rfl
  have hA : (phaseA up S).exit = .done [] := by
    unfold phaseA
    rw [hrun]
  have hC : (phaseA up S).calls = [.pageSize 1 S, .pageSize 2 S, .pageSize 3 S] := by
    unfold phaseA
    rw [hrun]
  refine ⟨hA, hC, ?_, phaseB_calls_ne_nil up S,
    fun c hc => phaseBAux_calls_offset up S 20001 0 0 [] c hc⟩
  have hsz : effSize ((⟨none, some (S : Int)⟩ : Request).sizeQ) = S :=
    effSize_inRange S hS1 hS2
  have hA' : (phaseA up (effSize ((⟨none, some (S : Int)⟩ : Request).sizeQ))).exit
      = .done [] := by rw [hsz]; exact hA
  have hz : ¬ 0 < ([] : List Item).length := by decide
  rcases hB : (phaseB up S).exit with all2 | ⟨stx, rwx⟩ | _
  · have hB' : (phaseB up (effSize ((⟨none, some (S : Int)⟩ : Request).sizeQ))).exit
        = .done all2 := by rw [hsz]; exact hB
    rw [handler_offsetSuccess up ⟨none, some S⟩ [] all2 rfl hA' hz hB', hsz]
  · have hB' : (phaseB up (effSize ((⟨none, some (S : Int)⟩ : Request).sizeQ))).exit
        = .abort stx rwx := by rw [hsz]; exact hB
    rw [handler_abortB up ⟨none, some S⟩ [] stx rwx rfl hA' hz hB', hsz]
  · have hB' : (phaseB up (effSize ((⟨none, some (S : Int)⟩ : Request).sizeQ))).exit
        = .threw := by rw [hsz]; exact hB
    rw [handler_threwB up ⟨none, some S⟩ [] rfl hA' hz hB', hsz]

/-- C2 (witness): at size 1 against an upstream that always returns the same
page with truthy first id 7: three page/size fetches, discard, then the
(empty-paged) offset/limit fallback. -/
theorem C2_witness :
    (phaseA upStag 1).exit = .done [] ∧
    (phaseA upStag 1).calls = [.pageSize 1 1, .pageSize 2 1, .pageSize 3 1] ∧
    (bookingsHandler true upStag ⟨none, some 1⟩).2 =
      (phaseA upStag 1).calls ++ (phaseB upStag 1).calls ∧
    (phaseB upStag 1).calls ≠ [] ∧
    (∀ c ∈ (phaseB upStag 1).calls, isOffsetCall c = true) :=
  C2_theorem 1 upStag (fun _ => 200) (fun _ => "") (fun _ => [⟨some 7⟩]) 7
    (by omega) (by omega) (by omega)
    (fun k _ _ => rfl)
    (fun k _ _ => show 200 ≤ 200 ∧ 200 < 300 by omega)
    (fun k _ _ => show 1 ≤ ([⟨some 7⟩] : List Item).length by decide)
    (fun k _ _ => rfl)

/-- The clamp always yields a positive size. -/
theorem effSize_pos (szQ : Option Int) : 1 ≤ effSize szQ := by
  unfold effSize
  have h1 : (1 : Int) ≤ max 1 (szQ.getD 200) := le_max_left _ _
  have h2 : (1 : Int) ≤ min 500 (max 1 (szQ.getD 200)) := le_min (by norm_num) h1
  omega

/-- `phaseAAux_abortOf` specialised to the handler's phase A entry state. -/
theorem phaseA_abortOf (up : Upstream) (size : Nat) (c : Call) (r : FetchResult)
    (hmem : c ∈ (phaseA up size).calls) (hup : up c = .ok r)
    (hbad : ¬(200 ≤ r.status ∧ r.status < 300)) :
    (phaseA up size).exit = .abort r.status r.raw :=
  phaseAAux_abortOf up size 5000 1 none 0 [] c r hmem hup hbad

/-- `phaseBAux_abortOf` specialised to the handler's phase B entry state. -/
theorem phaseB_abortOf (up : Upstream) (limit : Nat) (c : Call) (r : FetchResult)
    (hmem : c ∈ (phaseB up limit).calls) (hup : up c = .ok r)
    (hbad : ¬(200 ≤ r.status ∧ r.status < 300)) :
    (phaseB up limit).exit = .abort r.status r.raw :=
  phaseBAux_abortOf up limit 20001 0 0 [] c r hmem hup hbad

/-- C3 (counterexample): the claim fails as stated.  Against an upstream whose
every call answers 200 with an empty `items` array, a bookings aggregation run
(default size 200) does NOT terminate after the empty first page/size call:
a second upstream fetch (offset/limit) is made, and the response is tagged
`mode "offset/limit"`, not `"page/size"`. -/
theorem C3_counterexample :
    bookingsHandler true upEmpty ⟨none, none⟩ =
      (.success "offset/limit" [] 0, [.pageSize 1 200, .offsetLimit 0 200]) ∧
    (bookingsHandler true upEmpty ⟨none, none⟩).2.length ≠ 1 := by
  decide

/-- C3 (amended): if the first page/size call returns `2xx` with zero items,
the page/size phase ends immediately after that single call with nothing
accumulated, but the engine then enters the offset/limit fallback rather than
terminating; when the fallback's first call also returns `2xx` with zero
items, the run terminates with `ok`, `total 0`, tagged `mode "offset/limit"`,
after exactly one further upstream fetch. -/
theorem C3_theorem (up : Upstream) (szQ : Option Int) (st1 : Nat) (rw1 : String)
    (st2 : Nat) (rw2 : String)
    (H1 : up (.pageSize ((1 : Nat) : Int) ((effSize szQ : Nat) : Int)) =
      .ok ⟨st1, rw1, .json (some [])⟩)
    (H12 : 200 ≤ st1 ∧ st1 < 300)
    (H2 : up (.offsetLimit 0 ((effSize szQ : Nat) : Int)) =
      .ok ⟨st2, rw2, .json (some [])⟩)
    (H22 : 200 ≤ st2 ∧ st2 < 300) :
    bookingsHandler true up ⟨none, szQ⟩ =
      (.success "offset/limit" [] 0,
       [.pageSize ((1 : Nat) : Int) ((effSize szQ : Nat) : Int),
        .offsetLimit 0 ((effSize szQ : Nat) : Int)]) := by
  have hshort : ([] : List Item).length < effSize szQ := by
    have := effSize_pos szQ
    simp only [List.length_nil]
    omega
  have s1 : pageStep (effSize szQ) 1 none 0 []
      (up (.pageSize ((1 : Nat) : Int) ((effSize szQ : Nat) : Int))) =
      .halt (.done []) [[]] := by
    rw [H1, pageStep_short (effSize szQ) 1 none 0 [] st1 rw1 [] H12 hshort]
    rfl
  have hrun : phaseAAux up (effSize szQ) 5000 1 none 0 [] =
      ⟨.done [], [.pageSize ((1 : Nat) : Int) ((effSize szQ : Nat) : Int)], [[]]⟩ := by
    rw [show (5000 : Nat) = 4999 + 1 from rfl,
      phaseAAux_halt_eq up (effSize szQ) 4999 1 none 0 [] (.done []) [[]] s1]
  have hA : (phaseA up (effSize szQ)).exit = .done [] := by
    unfold phaseA
    rw [hrun]
  have hCA : (phaseA up (effSize szQ)).calls =
      [.pageSize ((1 : Nat) : Int) ((effSize szQ : Nat) : Int)] := by
    unfold phaseA
    rw [hrun]
  have hBrun : phaseB up (effSize szQ) =
      ⟨.done [], [.offsetLimit 0 ((effSize szQ : Nat) : Int)], [[]]⟩ :=
    phaseB_shortStop up (effSize szQ) st2 rw2 [] H22 hshort H2
  have hB : (phaseB up (effSize szQ)).exit = .done [] := by rw [hBrun]
  have hCB : (phaseB up (effSize szQ)).calls =
      [.offsetLimit 0 ((effSize szQ : Nat) : Int)] := by rw [hBrun]
  have hz : ¬ 0 < ([] : List Item).length := by decide
  have hfin : bookingsHandler true up ⟨none, szQ⟩ =
      (.success "offset/limit" [] ([] : List Item).length,
       (phaseA up (effSize szQ)).calls ++ (phaseB up (effSize szQ)).calls) :=
    handler_offsetSuccess up ⟨none, szQ⟩ [] [] rfl hA hz hB
  rw [hfin, hCA, hCB]
  rfl

/-- C3 (witness): the amended behaviour at the all-empty upstream. -/
theorem C3_witness :
    bookingsHandler true upEmpty ⟨none, none⟩ =
      (.success "offset/limit" [] 0,
       [.pageSize ((1 : Nat) : Int) ((effSize none : Nat) : Int),
        .offsetLimit 0 ((effSize none : Nat) : Int)]) :=
  C3_theorem upEmpty none 200 "" 200 "" rfl (by omega) rfl (by omega)

/-- C4 (counterexample): the claim fails as stated.  The client supplies the
explicit page parameter `0` (`?page=0`), yet the Aggregation Engine is NOT
bypassed: `Number("0") = 0` is falsy, so the handler runs the full aggregation
— two upstream calls are made (against the all-empty upstream) and an
aggregated payload, not a relayed single page, is returned. -/
theorem C4_counterexample :
    bookingsHandler true upEmpty ⟨some 0, none⟩ =
      (.success "offset/limit" [] 0, [.pageSize 1 200, .offsetLimit 0 200]) ∧
    (bookingsHandler true upEmpty ⟨some 0, none⟩).2.length ≠ 1 := by
  decide

/-- C4 (amended): for every bookings request whose client-supplied `page`
converts to a truthy (nonzero) number `p`, the Aggregation Engine is bypassed:
exactly one upstream page/size call is made, carrying exactly `p` as the page
and the clamped size, and the response is `lodgifyGet`'s relay of that call —
upstream status with JSON body when parseable, raw text otherwise. -/
theorem C4_theorem (up : Upstream) (p : Int) (szQ : Option Int) (hp : p ≠ 0) :
    bookingsHandler true up ⟨some p, szQ⟩ =
      (lodgifyGet up (.pageSize p (effSize szQ)), [.pageSize p (effSize szQ)]) ∧
    (∀ st rw oi, up (.pageSize p (effSize szQ)) = .ok ⟨st, rw, .json oi⟩ →
      (bookingsHandler true up ⟨some p, szQ⟩).1 = .passJson st oi) ∧
    (∀ st rw, up (.pageSize p (effSize szQ)) = .ok ⟨st, rw, .text⟩ →
      (bookingsHandler true up ⟨some p, szQ⟩).1 = .passText st rw) := by
  have hbp : bypassPage ((⟨some p, szQ⟩ : Request).pageQ) = some p := by
    simp [bypassPage, hp]
  have h := handler_bypass up ⟨some p, szQ⟩ p hbp
  refine ⟨h, ?_, ?_⟩
  · intro st rw oi hok
    rw [h]
    show lodgifyGet up (.pageSize p (effSize szQ)) = .passJson st oi
    rw [lodgifyGet, hok]
  · intro st rw hok
    rw [h]
    show lodgifyGet up (.pageSize p (effSize szQ)) = .passText st rw
    rw [lodgifyGet, hok]

/-- C4 (witness): page 2 with default size bypasses aggregation. -/
theorem C4_witness :
    bookingsHandler true upEmpty ⟨some 2, none⟩ =
      (lodgifyGet upEmpty (.pageSize 2 (effSize none)), [.pageSize 2 (effSize none)]) :=
  (C4_theorem upEmpty 2 none (by decide)).1

/-- C5 (confirmed): during an aggregation run, if any upstream call the engine
actually made resolved with a non-2xx status, the whole aggregation aborted
there: the response is exactly `relayText` of that call's status and verbatim
body (in either phase; the first such call is necessarily the last one made),
and in particular no aggregated `success` payload is returned. -/
theorem C5_theorem (up : Upstream) (szQ : Option Int) (c : Call) (r : FetchResult)
    (hmem : c ∈ (bookingsHandler true up ⟨none, szQ⟩).2)
    (hup : up c = .ok r)
    (hbad : r.status < 200 ∨ 300 ≤ r.status) :
    (bookingsHandler true up ⟨none, szQ⟩).1 = .relayText r.status r.raw ∧
    ∀ m it t, (bookingsHandler true up ⟨none, szQ⟩).1 ≠ .success m it t := by
  have hbad' : ¬(200 ≤ r.status ∧ r.status < 300) := by omega
  have hmain : (bookingsHandler true up ⟨none, szQ⟩).1 = .relayText r.status r.raw := by
    rcases hA : (phaseA up (effSize szQ)).exit with all | ⟨stx, rwx⟩ | _
    · by_cases hpos : 0 < all.length
      · have hH : bookingsHandler true up ⟨none, szQ⟩ =
            (.success "page/size" all all.length, (phaseA up (effSize szQ)).calls) :=
          handler_pageSizeSuccess up ⟨none, szQ⟩ all rfl hA hpos
        rw [hH] at hmem
        have hmem' : c ∈ (phaseA up (effSize szQ)).calls := hmem
        have hcontra := phaseA_abortOf up (effSize szQ) c r hmem' hup hbad'
        rw [hA] at hcontra
        simp at hcontra
      · rcases hB : (phaseB up (effSize szQ)).exit with all2 | ⟨stx, rwx⟩ | _
        · have hH : bookingsHandler true up ⟨none, szQ⟩ =
              (.success "offset/limit" all2 all2.length,
               (phaseA up (effSize szQ)).calls ++ (phaseB up (effSize szQ)).calls) :=
            handler_offsetSuccess up ⟨none, szQ⟩ all all2 rfl hA hpos hB
          rw [hH] at hmem
          have hmem' : c ∈ (phaseA up (effSize szQ)).calls ++ (phaseB up (effSize szQ)).calls := hmem
          rcases List.mem_append.mp hmem' with h | h
          · have hcontra := phaseA_abortOf up (effSize szQ) c r h hup hbad'
            rw [hA] at hcontra
            simp at hcontra
          · have hcontra := phaseB_abortOf up (effSize szQ) c r h hup hbad'
            rw [hB] at hcontra
            simp at hcontra
        · have hH : bookingsHandler true up ⟨none, szQ⟩ =
              (.relayText stx rwx,
               (phaseA up (effSize szQ)).calls ++ (phaseB up (effSize szQ)).calls) :=
            handler_abortB up ⟨none, szQ⟩ all stx rwx rfl hA hpos hB
          rw [hH] at hmem
          have hmem' : c ∈ (phaseA up (effSize szQ)).calls ++ (phaseB up (effSize szQ)).calls := hmem
          rcases List.mem_append.mp hmem' with h | h
          · have hcontra := phaseA_abortOf up (effSize szQ) c r h hup hbad'
            rw [hA] at hcontra
            simp at hcontra
          · have heq := phaseB_abortOf up (effSize szQ) c r h hup hbad'
            have h2 := hB.symm.trans heq
            injection h2 with e1 e2
            subst e1
            subst e2
            rw [hH]
        · have hH : bookingsHandler true up ⟨none, szQ⟩ =
              (.errJson 500 "lodgify_bookings_failed",
               (phaseA up (effSize szQ)).calls ++ (phaseB up (effSize szQ)).calls) :=
            handler_threwB up ⟨none, szQ⟩ all rfl hA hpos hB
          rw [hH] at hmem
          have hmem' : c ∈ (phaseA up (effSize szQ)).calls ++ (phaseB up (effSize szQ)).calls := hmem
          rcases List.mem_append.mp hmem' with h | h
          · have hcontra := phaseA_abortOf up (effSize szQ) c r h hup hbad'
            rw [hA] at hcontra
            simp at hcontra
          · have hcontra := phaseB_abortOf up (effSize szQ) c r h hup hbad'
            rw [hB] at hcontra
            simp at hcontra
    · have hH : bookingsHandler true up ⟨none, szQ⟩ =
          (.relayText stx rwx, (phaseA up (effSize szQ)).calls) :=
        handler_abortA up ⟨none, szQ⟩ stx rwx rfl hA
      rw [hH] at hmem
      have hmem' : c ∈ (phaseA up (effSize szQ)).calls := hmem
      have heq := phaseA_abortOf up (effSize szQ) c r hmem' hup hbad'
      have h2 := hA.symm.trans heq
      injection h2 with e1 e2
      subst e1
      subst e2
      rw [hH]
    · have hH : bookingsHandler true up ⟨none, szQ⟩ =
          (.errJson 500 "lodgify_bookings_failed", (phaseA up (effSize szQ)).calls) :=
        handler_threwA up ⟨none, szQ⟩ rfl hA
      rw [hH] at hmem
      have hmem' : c ∈ (phaseA up (effSize szQ)).calls := hmem
      have hcontra := phaseA_abortOf up (effSize szQ) c r hmem' hup hbad'
      rw [hA] at hcontra
      simp at hcontra
  refine ⟨hmain, fun m it t h => ?_⟩
  rw [hmain] at h
  exact Response.noConfusion h

/-- C5 (witness): a 404 with body "nope" on the first aggregation fetch is
relayed verbatim. -/
theorem C5_witness :
    (bookingsHandler true upNon2xx ⟨none, none⟩).1 = .relayText 404 "nope" :=
  (C5_theorem upNon2xx none (.pageSize 1 200) ⟨404, "nope", .text⟩
    (by decide) rfl (by decide)).1

/-- C6 (counterexample): the claim fails as stated.  A `2xx` upstream page
body that is not parseable JSON is NOT treated as an empty page: `JSON.parse`
throws, the exception escapes to the handler's catch, and the run answers the
500 `lodgify_bookings_failed` error instead of completing under the normal
termination rules. -/
theorem C6_counterexample :
    bookingsHandler true upText2xx ⟨none, none⟩ =
      (.errJson 500 "lodgify_bookings_failed", [.pageSize 1 200]) ∧
    (bookingsHandler true upText2xx ⟨none, none⟩).1 ≠ .success "page/size" [] 0 ∧
    (bookingsHandler true upText2xx ⟨none, none⟩).1 ≠ .success "offset/limit" [] 0 := by
  decide

/-- C6 (amended): a `2xx` page body that parses as JSON but lacks an `items`
array is treated exactly as an empty page in both pagination modes (the same
iteration outcome as an explicit empty `items`), and the run proceeds under
the normal termination rules; but a `2xx` body that is NOT parseable JSON
aborts the aggregation with the 500 `lodgify_bookings_failed` JSON error
response after that fetch — the request always receives a well-formed
response, though not via the empty-page interpretation. -/
theorem C6_theorem :
    (∀ (size page : Nat) (last : Option Nat) (stag : Nat) (all : List Item)
        (st : Nat) (rw : String),
      pageStep size page last stag all (.ok ⟨st, rw, .json none⟩) =
        pageStep size page last stag all (.ok ⟨st, rw, .json (some [])⟩)) ∧
    (∀ (limit safety : Nat) (all2 : List Item) (st : Nat) (rw : String),
      offsetStep limit safety all2 (.ok ⟨st, rw, .json none⟩) =
        offsetStep limit safety all2 (.ok ⟨st, rw, .json (some [])⟩)) ∧
    (∀ (up : Upstream) (szQ : Option Int) (st : Nat) (rw : String),
      up (.pageSize ((1 : Nat) : Int) ((effSize szQ : Nat) : Int)) = .ok ⟨st, rw, .text⟩ →
      200 ≤ st ∧ st < 300 →
      bookingsHandler true up ⟨none, szQ⟩ =
        (.errJson 500 "lodgify_bookings_failed",
         [.pageSize ((1 : Nat) : Int) ((effSize szQ : Nat) : Int)])) := by
  refine ⟨fun _ _ _ _ _ _ _ => rfl, fun _ _ _ _ _ => rfl, ?_⟩
  intro up szQ st rw hok h2x
  have s1 : pageStep (effSize szQ) 1 none 0 []
      (up (.pageSize ((1 : Nat) : Int) ((effSize szQ : Nat) : Int))) =
      .halt .threw [] := by
    rw [hok]
    exact pageStep_text (effSize szQ) 1 none 0 [] st rw h2x
  have hrun : phaseAAux up (effSize szQ) 5000 1 none 0 [] =
      ⟨.threw, [.pageSize ((1 : Nat) : Int) ((effSize szQ : Nat) : Int)], []⟩ := by
    rw [show (5000 : Nat) = 4999 + 1 from rfl,
      phaseAAux_halt_eq up (effSize szQ) 4999 1 none 0 [] .threw [] s1]
  have hA : (phaseA up (effSize szQ)).exit = .threw := by
    unfold phaseA
    rw [hrun]
  have hCA : (phaseA up (effSize szQ)).calls =
      [.pageSize ((1 : Nat) : Int) ((effSize szQ : Nat) : Int)] := by
    unfold phaseA
    rw [hrun]
  have hfin : bookingsHandler true up ⟨none, szQ⟩ =
      (.errJson 500 "lodgify_bookings_failed", (phaseA up (effSize szQ)).calls) :=
    handler_threwA up ⟨none, szQ⟩ rfl hA
  rw [hfin, hCA]

/-- C6 (witness): the text-body abort at the concrete upstream. -/
theorem C6_witness :
    bookingsHandler true upText2xx ⟨none, none⟩ =
      (.errJson 500 "lodgify_bookings_failed",
       [.pageSize ((1 : Nat) : Int) ((effSize none : Nat) : Int)]) :=
  C6_theorem.2.2 upText2xx none 200 "<html>" rfl (by omega)

/-- C7 (counterexample): the claim fails as stated.  An upstream timeout on a
fetch made mid-aggregation does NOT yield a 504: the rejection escapes to the
bookings handler's catch, which answers 500 `lodgify_bookings_failed` — the
timeout is not distinguished there. -/
theorem C7_counterexample :
    bookingsHandler true upTimeout ⟨none, none⟩ =
      (.errJson 500 "lodgify_bookings_failed", [.pageSize 1 200]) ∧
    (bookingsHandler true upTimeout ⟨none, none⟩).1 ≠ .errJson 504 "lodgify_timeout" := by
  decide

/-- C7 (amended): every request gets a response.  On the single-call paths
(properties, and single-page bookings with a truthy client page), a timeout
(`AbortError`) yields status 504 with error code `lodgify_timeout` while a
generic network failure yields status 504 with error code
`lodgify_fetch_failed` — the two kinds are distinguished by error code, both
under status 504 (no 502-class status exists in the code); on a fetch made
mid-aggregation, either failure kind instead yields the 500
`lodgify_bookings_failed` error. -/
theorem C7_theorem :
    (∀ (up : Upstream) (c : Call), up c = .err true →
      propertiesHandler true up c = .errJson 504 "lodgify_timeout") ∧
    (∀ (up : Upstream) (c : Call), up c = .err false →
      propertiesHandler true up c = .errJson 504 "lodgify_fetch_failed") ∧
    (∀ (up : Upstream) (p : Int) (szQ : Option Int) (b : Bool), p ≠ 0 →
      up (.pageSize p (effSize szQ)) = .err b →
      (bookingsHandler true up ⟨some p, szQ⟩).1 =
        .errJson 504 (if b then "lodgify_timeout" else "lodgify_fetch_failed")) ∧
    (∀ (up : Upstream) (szQ : Option Int) (b : Bool),
      up (.pageSize ((1 : Nat) : Int) ((effSize szQ : Nat) : Int)) = .err b →
      bookingsHandler true up ⟨none, szQ⟩ =
        (.errJson 500 "lodgify_bookings_failed",
         [.pageSize ((1 : Nat) : Int) ((effSize szQ : Nat) : Int)])) := by
  refine ⟨?_, ?_, ?_, ?_⟩
  · intro up c h
    simp [propertiesHandler, lodgifyGet, h]
  · intro up c h
    simp [propertiesHandler, lodgifyGet, h]
  · intro up p szQ b hp h
    have hbp : bypassPage ((⟨some p, szQ⟩ : Request).pageQ) = some p := by
      simp [bypassPage, hp]
    rw [handler_bypass up ⟨some p, szQ⟩ p hbp]
    show lodgifyGet up (.pageSize p (effSize szQ)) = _
    rw [lodgifyGet, h]
  · intro up szQ b hok
    have s1 : pageStep (effSize szQ) 1 none 0 []
        (up (.pageSize ((1 : Nat) : Int) ((effSize szQ : Nat) : Int))) =
        .halt .threw [] := by
      rw [hok]
      exact pageStep_err (effSize szQ) 1 none 0 [] b
    have hrun : phaseAAux up (effSize szQ) 5000 1 none 0 [] =
        ⟨.threw, [.pageSize ((1 : Nat) : Int) ((effSize szQ : Nat) : Int)], []⟩ := by
      rw [show (5000 : Nat) = 4999 + 1 from rfl,
        phaseAAux_halt_eq up (effSize szQ) 4999 1 none 0 [] .threw [] s1]
    have hA : (phaseA up (effSize szQ)).exit = .threw := by
      unfold phaseA
      rw [hrun]
    have hCA : (phaseA up (effSize szQ)).calls =
        [.pageSize ((1 : Nat) : Int) ((effSize szQ : Nat) : Int)] := by
      unfold phaseA
      rw [hrun]
    have hfin : bookingsHandler true up ⟨none, szQ⟩ =
        (.errJson 500 "lodgify_bookings_failed", (phaseA up (effSize szQ)).calls) :=
      handler_threwA up ⟨none, szQ⟩ rfl hA
    rw [hfin, hCA]

/-- C7 (witness): the four distinguished failure responses at concrete
upstreams. -/
theorem C7_witness :
    propertiesHandler true upTimeout (.pageSize 1 200) = .errJson 504 "lodgify_timeout" ∧
    propertiesHandler true upNet (.pageSize 1 200) = .errJson 504 "lodgify_fetch_failed" ∧
    (bookingsHandler true upTimeout ⟨some 2, none⟩).1 = .errJson 504 "lodgify_timeout" ∧
    bookingsHandler true upNet ⟨none, none⟩ =
      (.errJson 500 "lodgify_bookings_failed",
       [.pageSize ((1 : Nat) : Int) ((effSize none : Nat) : Int)]) :=
  ⟨C7_theorem.1 upTimeout (.pageSize 1 200) rfl,
   C7_theorem.2.1 upNet (.pageSize 1 200) rfl,
   C7_theorem.2.2.1 upTimeout 2 none true (by decide) rfl,
   C7_theorem.2.2.2 upNet none false rfl⟩

/-- C8 (confirmed): reaching either safety bound ends the run as an `ok`
success, not an error.  First conjunct: when every page/size fetch returns a
full `2xx` page (with no stagnation hit among the fetched pages), the run
performs exactly 5000 page/size fetches — the `page > 5000` circuit breaker —
and answers `ok, mode "page/size"` with everything accumulated.  Second
conjunct: when the first page/size fetch is empty and every offset/limit
fetch returns a full `2xx` page, the fallback performs exactly 20001 fetches —
the `safety > 20000` circuit breaker — and answers `ok, mode "offset/limit"`
with everything accumulated. -/
theorem C8_theorem :
    (∀ (S : Nat) (up : Upstream) (st : Nat → Nat) (rw : Nat → String)
        (P : Nat → List Item),
      1 ≤ S → S ≤ 500 →
      (∀ k : Nat, 1 ≤ k → k ≤ 5000 →
        up (.pageSize k S) = .ok ⟨st k, rw k, .json (some (P k))⟩) →
      (∀ k : Nat, 1 ≤ k → k ≤ 5000 → 200 ≤ st k ∧ st k < 300) →
      (∀ k : Nat, 1 ≤ k → k ≤ 5000 → (P k).length = S) →
      (∀ k : Nat, 1 ≤ k → k + 1 ≤ 5000 →
        stagStep (firstId (P (k + 1))) (firstId (P k)) 0 = 0) →
      bookingsHandler true up ⟨none, some S⟩ =
        (.success "page/size" (pagesFrom P 1 5000) (pagesFrom P 1 5000).length,
         pageCallsFrom S 1 5000)) ∧
    (∀ (S : Nat) (up : Upstream) (st0 : Nat) (rw0 : String)
        (stB : Nat → Nat) (rwB : Nat → String) (Q : Nat → List Item),
      1 ≤ S → S ≤ 500 →
      up (.pageSize ((1 : Nat) : Int) (S : Int)) = .ok ⟨st0, rw0, .json (some [])⟩ →
      200 ≤ st0 → st0 < 300 →
      (∀ k : Nat, k ≤ 20000 →
        up (.offsetLimit ((k * S : Nat) : Int) (S : Int)) =
          .ok ⟨stB k, rwB k, .json (some (Q k))⟩) →
      (∀ k : Nat, k ≤ 20000 → 200 ≤ stB k ∧ stB k < 300) →
      (∀ k : Nat, k ≤ 20000 → (Q k).length = S) →
      bookingsHandler true up ⟨none, some S⟩ =
        (.success "offset/limit" (pagesFrom Q 0 20001) (pagesFrom Q 0 20001).length,
         .pageSize ((1 : Nat) : Int) (S : Int) ::
           offsetCallsFrom S (fun k => k * S) 0 20001)) := by
  constructor
  · intro S up st rw P hS1 hS2 Hok H2 Hfull Hnohit
    have hmin : min 5001 5000 = 5000 := by norm_num
    have hmain := phaseAAux_cleanRun up S P st rw 5001 hS1
      (fun k h1 h2 => Hok k h1 (hmin ▸ h2))
      (fun k h1 h2 => H2 k h1 (hmin ▸ h2))
      (fun k h1 h2 => Hfull k h1 (by omega))
      (fun h => absurd h (by omega))
      (fun k h1 h2 => Hnohit k h1 (hmin ▸ h2))
      5000 1 (by omega) (by rw [hmin]; omega) (by omega) none [] (stagStep_none _ _)
    rw [hmin, List.nil_append, show (5000 : Nat) - 1 + 1 = 5000 from by omega] at hmain
    have hpos : 0 < (pagesFrom P 1 5000).length :=
      pagesFrom_pos P 1 5000 (by omega)
        (by rw [Hfull 1 (by omega) (by omega)]; omega)
    have hsz : effSize ((⟨none, some (S : Int)⟩ : Request).sizeQ) = S :=
      effSize_inRange S hS1 hS2
    have hA : (phaseA up (effSize ((⟨none, some (S : Int)⟩ : Request).sizeQ))).exit
        = .done (pagesFrom P 1 5000) := by
      rw [hsz]
      exact hmain.1
    have hC : (phaseA up (effSize ((⟨none, some (S : Int)⟩ : Request).sizeQ))).calls
        = pageCallsFrom S 1 5000 := by
      rw [hsz]
      exact hmain.2
    rw [handler_pageSizeSuccess up ⟨none, some S⟩ (pagesFrom P 1 5000) rfl hA hpos, hC]
  · intro S up st0 rw0 stB rwB Q hS1 hS2 H1 H12 H13 HokB H2B HfullB
    have hshort : ([] : List Item).length < S := by
      simp only [List.length_nil]
      omega
    have s1 : pageStep S 1 none 0 []
        (up (.pageSize ((1 : Nat) : Int) (S : Int))) = .halt (.done []) [[]] := by
      rw [H1, pageStep_short S 1 none 0 [] st0 rw0 [] ⟨H12, H13⟩ hshort]
      rfl
    have hrun : phaseAAux up S 5000 1 none 0 [] =
        ⟨.done [], [.pageSize ((1 : Nat) : Int) (S : Int)], [[]]⟩ := by
      rw [show (5000 : Nat) = 4999 + 1 from rfl,
        phaseAAux_halt_eq up S 4999 1 none 0 [] (.done []) [[]] s1]
    have hA : (phaseA up S).exit = .done [] := by
      unfold phaseA
      rw [hrun]
    have hCA : (phaseA up S).calls = [.pageSize ((1 : Nat) : Int) (S : Int)] := by
      unfold phaseA
      rw [hrun]
    have hcap := phaseBAux_capRun up S (fun k => k * S) stB rwB Q hS1
      (fun k => by show (k + 1) * S = k * S + S; rw [Nat.succ_mul])
      HokB H2B HfullB 20001 0 (by omega) (by omega) []
    simp only [Nat.zero_mul] at hcap
    rw [show (20001 : Nat) - 0 = 20001 from rfl, List.nil_append] at hcap
    have hB : (phaseB up S).exit = .done (pagesFrom Q 0 20001) := hcap.1
    have hCB : (phaseB up S).calls = offsetCallsFrom S (fun k => k * S) 0 20001 := hcap.2
    have hsz : effSize ((⟨none, some (S : Int)⟩ : Request).sizeQ) = S :=
      effSize_inRange S hS1 hS2
    have hA' : (phaseA up (effSize ((⟨none, some (S : Int)⟩ : Request).sizeQ))).exit
        = .done [] := by rw [hsz]; exact hA
    have hB' : (phaseB up (effSize ((⟨none, some (S : Int)⟩ : Request).sizeQ))).exit
        = .done (pagesFrom Q 0 20001) := by rw [hsz]; exact hB
    have hz : ¬ 0 < ([] : List Item).length := by decide
    rw [handler_offsetSuccess up ⟨none, some S⟩ [] (pagesFrom Q 0 20001) rfl hA' hz hB',
      hsz, hCA, hCB]
    rfl

/-- C8 (witness): both circuit breakers at size 1 — id-less full pages for the
page/size bound, and an offset-ignoring upstream after an empty first page for
the offset/limit bound. -/
theorem C8_witness :
    bookingsHandler true upFullNoId ⟨none, some ((1 : Nat) : Int)⟩ =
      (.success "page/size" (pagesFrom (fun _ => ([⟨none⟩] : List Item)) 1 5000)
        (pagesFrom (fun _ => ([⟨none⟩] : List Item)) 1 5000).length,
       pageCallsFrom 1 1 5000) ∧
    bookingsHandler true upOffFull ⟨none, some ((1 : Nat) : Int)⟩ =
      (.success "offset/limit" (pagesFrom (fun _ => ([⟨none⟩] : List Item)) 0 20001)
        (pagesFrom (fun _ => ([⟨none⟩] : List Item)) 0 20001).length,
       .pageSize ((1 : Nat) : Int) ((1 : Nat) : Int) ::
         offsetCallsFrom 1 (fun k => k * 1) 0 20001) :=
  ⟨C8_theorem.1 1 upFullNoId (fun _ => 200) (fun _ => "") (fun _ => ([⟨none⟩] : List Item))
    (by omega) (by omega)
    (fun k _ _ => rfl)
    (fun k _ _ => show 200 ≤ 200 ∧ 200 < 300 by omega)
    (fun k _ _ => rfl)
    (fun k _ _ => rfl),
   C8_theorem.2 1 upOffFull 200 "" (fun _ => 200) (fun _ => "") (fun _ => ([⟨none⟩] : List Item))
    (by omega) (by omega) rfl (by omega) (by omega)
    (fun k _ => rfl)
    (fun k _ => show 200 ≤ 200 ∧ 200 < 300 by omega)
    (fun k _ => rfl)⟩

/-- C9 (counterexample): the claim fails as stated.  In the stagnation run the
accumulator history is `[[x], [x, x], []]`: on the mode transition the
accumulated collection is discarded, so it does not only grow — and the run
then returns an `ok: true` success (`mode "offset/limit"`, empty) even though
the three fetched pages' items were dropped. -/
theorem C9_counterexample :
    (phaseA upStag 1).accs = [[⟨some 7⟩], [⟨some 7⟩, ⟨some 7⟩], []] ∧
    growsFrom [] ((phaseA upStag 1).accs) = false ∧
    (bookingsHandler true upStag ⟨none, some 1⟩).1 = .success "offset/limit" [] 0 := by
  decide

/-- C9 (amended): within one aggregation run the accumulator history is
append-only except for the stagnation discard: in the page/size phase every
iteration-end snapshot either extends the previous accumulator or is the empty
list (the `all = []` reset of the mode transition), and in the offset/limit
phase every snapshot strictly extends the previous accumulator (no discard
ever happens there). -/
theorem C9_theorem :
    (∀ (up : Upstream) (size fuel page : Nat) (last : Option Nat) (stag : Nat)
        (all : List Item),
      growsOrDiscard all (phaseAAux up size fuel page last stag all).accs = true) ∧
    (∀ (up : Upstream) (limit fuel offset safety : Nat) (all2 : List Item),
      growsFrom all2 (phaseBAux up limit fuel offset safety all2).accs = true) :=
  ⟨fun up size fuel page last stag all =>
    phaseAAux_growOrDiscard up size fuel page last stag all,
   fun up limit fuel offset safety all2 =>
    phaseBAux_grows up limit fuel offset safety all2⟩

/-- C10 (confirmed): the offset/limit fallback has no stagnation detection.
Against an upstream that ignores the `offset` parameter — every offset/limit
call returns the same full `2xx` page — the fallback (entered here after an
empty first page/size call) never discards, never switches scheme, and exits
only via the 20000-iteration safety cap: 20001 offset/limit fetches at offsets
0, S, 2S, …, and the 20001-fold duplicated page is returned as an `ok: true`
success tagged `mode "offset/limit"`. -/
theorem C10_theorem (S : Nat) (up : Upstream) (st0 : Nat) (rw0 : String)
    (stB : Nat) (rwB : String) (pg : List Item)
    (hS1 : 1 ≤ S) (hS2 : S ≤ 500)
    (H1 : up (.pageSize ((1 : Nat) : Int) (S : Int)) = .ok ⟨st0, rw0, .json (some [])⟩)
    (H12 : 200 ≤ st0) (H13 : st0 < 300)
    (HB : ∀ off : Nat, up (.offsetLimit ((off : Nat) : Int) (S : Int)) =
      .ok ⟨stB, rwB, .json (some pg)⟩)
    (HB2 : 200 ≤ stB) (HB3 : stB < 300)
    (Hlen : pg.length = S) :
    bookingsHandler true up ⟨none, some S⟩ =
      (.success "offset/limit" (List.replicate 20001 pg).flatten
        (List.replicate 20001 pg).flatten.length,
       .pageSize ((1 : Nat) : Int) (S : Int) ::
         offsetCallsFrom S (fun k => k * S) 0 20001) := by
  have hshort : ([] : List Item).length < S := by
    simp only [List.length_nil]
    omega
  have s1 : pageStep S 1 none 0 []
      (up (.pageSize ((1 : Nat) : Int) (S : Int))) = .halt (.done []) [[]] := by
    rw [H1, pageStep_short S 1 none 0 [] st0 rw0 [] ⟨H12, H13⟩ hshort]
    rfl
  have hrun : phaseAAux up S 5000 1 none 0 [] =
      ⟨.done [], [.pageSize ((1 : Nat) : Int) (S : Int)], [[]]⟩ := by
    rw [show (5000 : Nat) = 4999 + 1 from rfl,
      phaseAAux_halt_eq up S 4999 1 none 0 [] (.done []) [[]] s1]
  have hA : (phaseA up S).exit = .done [] := by
    unfold phaseA
    rw [hrun]
  have hCA : (phaseA up S).calls = [.pageSize ((1 : Nat) : Int) (S : Int)] := by
    unfold phaseA
    rw [hrun]
  have hcap := phaseBAux_capRun up S (fun k => k * S) (fun _ => stB) (fun _ => rwB)
    (fun _ => pg) hS1
    (fun k => by show (k + 1) * S = k * S + S; rw [Nat.succ_mul])
    (fun k _ => HB (k * S))
    (fun k _ => ⟨HB2, HB3⟩)
    (fun k _ => Hlen) 20001 0 (by omega) (by omega) []
  simp only [Nat.zero_mul] at hcap
  rw [show (20001 : Nat) - 0 = 20001 from rfl, List.nil_append,
    pagesFrom_const pg 20001 0] at hcap
  have hB : (phaseB up S).exit = .done (List.replicate 20001 pg).flatten := hcap.1
  have hCB : (phaseB up S).calls = offsetCallsFrom S (fun k => k * S) 0 20001 := hcap.2
  have hsz : effSize ((⟨none, some (S : Int)⟩ : Request).sizeQ) = S :=
    effSize_inRange S hS1 hS2
  have hA' : (phaseA up (effSize ((⟨none, some (S : Int)⟩ : Request).sizeQ))).exit
      = .done [] := by rw [hsz]; exact hA
  have hB' : (phaseB up (effSize ((⟨none, some (S : Int)⟩ : Request).sizeQ))).exit
      = .done (List.replicate 20001 pg).flatten := by rw [hsz]; exact hB
  have hz : ¬ 0 < ([] : List Item).length := by decide
  rw [handler_offsetSuccess up ⟨none, some S⟩ [] (List.replicate 20001 pg).flatten
      rfl hA' hz hB', hsz, hCA, hCB]
  rfl

/-- C10 (witness): the cap run at size 1 with the constant single-item page. -/
theorem C10_witness :
    bookingsHandler true upOffFull ⟨none, some ((1 : Nat) : Int)⟩ =
      (.success "offset/limit" (List.replicate 20001 ([⟨none⟩] : List Item)).flatten
        (List.replicate 20001 ([⟨none⟩] : List Item)).flatten.length,
       .pageSize ((1 : Nat) : Int) ((1 : Nat) : Int) ::
         offsetCallsFrom 1 (fun k => k * 1) 0 20001) :=
  C10_theorem 1 upOffFull 200 "" 200 "" ([⟨none⟩] : List Item) (by omega) (by omega)
    rfl (by omega) (by omega) (fun off => rfl) (by omega) (by omega) rfl

end Proxy
